import Mathlib

/-!
Verification of the VeriDock converter core against its specification.

The Python sources are shallowly embedded over `List Char` (container text)
and `List Nat` (byte strings, each byte `< 256`).  Pure text transformations
(`re.sub` with the specific patterns used by the code, substring search,
insertion before a marker) are modelled by executable scanners that reproduce
the leftmost, non-overlapping match semantics of Python's `re` module for the
pattern shapes actually occurring in the code:
`<tag>[^<]*</tag>`, `<tag>.*?</tag>` (DOTALL), and literal patterns.

The file has two parts: all definitions first, then all theorems.
-/

namespace Veridock

/-! # Part 1: definitions -/

/-! ## Base64 (Python `base64.b64encode` / `b64decode`), from
`pdf_to_svg.py` (`pdf_to_base64`) and `svg_operations.py`
(`extract_pdf_from_svg`). -/

def b64Alphabet : List Char :=
  "ABCDEFGHIJKLMNOPQRSTUVWXYZabcdefghijklmnopqrstuvwxyz0123456789+/".toList

/-- The character for a 6-bit group. -/
def enc6 (n : Nat) : Char := b64Alphabet.getD n 'A'

/-- Characters matched by the Python character class `[A-Za-z0-9+/=]`. -/
def isB64Char (c : Char) : Bool :=
  ('A' ≤ c && c ≤ 'Z') || ('a' ≤ c && c ≤ 'z') || ('0' ≤ c && c ≤ '9')
    || c = '+' || c = '/' || c = '='

def dec6Aux : List Char → Nat → Char → Option Nat
  | [], _, _ => none
  | a :: as, i, c => if a = c then some i else dec6Aux as (i + 1) c

/-- Index of a character in the base64 alphabet. -/
def dec6 (c : Char) : Option Nat := dec6Aux b64Alphabet 0 c

/-- `base64.b64encode` on a byte string (bytes as `Nat < 256`). -/
def b64encode : List Nat → List Char
  | [] => []
  | [a] => [enc6 (a / 4), enc6 (a % 4 * 16), '=', '=']
  | [a, b] => [enc6 (a / 4), enc6 (a % 4 * 16 + b / 16), enc6 (b % 16 * 4), '=']
  | a :: b :: c :: rest =>
      enc6 (a / 4) :: enc6 (a % 4 * 16 + b / 16) :: enc6 (b % 16 * 4 + c / 64)
        :: enc6 (c % 64) :: b64encode rest

/-- `base64.b64decode` on alphabet-only input: quartets, with `=` padding
only at the very end; anything else is a decode error (`none`). -/
def b64decode : List Char → Option (List Nat)
  | [] => some []
  | a :: b :: c :: d :: rest =>
      match dec6 a, dec6 b with
      | some x, some y =>
          if c = '=' then
            if d = '=' ∧ rest = [] then some [x * 4 + y / 16] else none
          else
            match dec6 c with
            | some z =>
                if d = '=' then
                  if rest = [] then some [x * 4 + y / 16, y % 16 * 16 + z / 4] else none
                else
                  match dec6 d with
                  | some w =>
                      match b64decode rest with
                      | some tl =>
                          some ((x * 4 + y / 16) :: (y % 16 * 16 + z / 4)
                            :: (z % 4 * 64 + w) :: tl)
                      | none => none
                  | none => none
            | none => none
      | _, _ => none
  | _ => none

/-! ## Text scanners

Python's `re` module on the pattern shapes used by the code.  All container
operations in the sources are `re.search` / `re.sub` / `str.find`-based edits
of the raw SVG text, with patterns of three shapes: a literal string,
`open[^<]*close`, and `open.*?close` with `re.DOTALL`.  For these shapes the
regex engine's leftmost-match-then-continue-after behaviour is deterministic
and reproduced by the scanners below. -/

/-- Python `pat in s` (also `re.search` of a literal pattern, viewed as a
Bool): does `pat` occur as a contiguous substring? -/
def containsSub (pat : List Char) : List Char → Bool
  | [] => pat.isPrefixOf []
  | c :: cs => pat.isPrefixOf (c :: cs) || containsSub pat cs

/-- Python `s.find(pat)`: index of the first occurrence. -/
def firstIdx (pat : List Char) : List Char → Option Nat
  | [] => if pat.isPrefixOf [] then some 0 else none
  | c :: cs =>
      if pat.isPrefixOf (c :: cs) then some 0 else (firstIdx pat cs).map (· + 1)

/-- The slice-and-concatenate insertion `s[:i] + ins + s[i:]` at
`i = s.find(marker)`, as used by the `ocr_data` / `thumbnail_metadata`
insert branches; no occurrence of the marker means no change. -/
def insertBefore (marker ins s : List Char) : List Char :=
  match firstIdx marker s with
  | none => s
  | some i => s.take i ++ ins ++ s.drop i

/-- No occurrence of `pat` starts at a position `< n` of `s`. -/
def noOccBefore (pat : List Char) : List Char → Nat → Bool
  | _, 0 => true
  | [], _ + 1 => !pat.isPrefixOf []
  | c :: cs, n + 1 => !pat.isPrefixOf (c :: cs) && noOccBefore pat cs n

/-- One scanning pass of `re.sub`: at each position, `step` either produces
the replacement text together with the remainder after the match, or fails
and the scanner advances one character.  Fuel-driven; the wrappers pass the
input length, which suffices because a match consumes at least one
character. -/
def replaceGo (step : List Char → Option (List Char × List Char)) :
    Nat → List Char → List Char
  | 0, s => s
  | _ + 1, [] => []
  | fuel + 1, c :: cs =>
      match step (c :: cs) with
      | some (out, rest) => out ++ replaceGo step fuel rest
      | none => c :: replaceGo step fuel cs

/-- Match attempt for a literal pattern. -/
def stepLit (pat repl s : List Char) : Option (List Char × List Char) :=
  if pat.isPrefixOf s then some (repl, s.drop pat.length) else none

/-- Match attempt for `open[^<]*close`: the character class cannot pass a
`<`, and `close` starts with `<`, so the only candidate for the close tag is
the first `<` after the open tag. -/
def stepTagNoLt (openT closeT repl s : List Char) :
    Option (List Char × List Char) :=
  if openT.isPrefixOf s then
    let r := s.drop openT.length
    let content := r.takeWhile (fun c => c ≠ '<')
    let r2 := r.drop content.length
    if closeT.isPrefixOf r2 then some (repl, r2.drop closeT.length) else none
  else none

/-- Match attempt for `open.*?close` under `re.DOTALL`: non-greedy, so the
close tag is the nearest occurrence after the open tag. -/
def stepTagDotall (openT closeT repl s : List Char) :
    Option (List Char × List Char) :=
  if openT.isPrefixOf s then
    match firstIdx closeT (s.drop openT.length) with
    | some i => some (repl, (s.drop openT.length).drop (i + closeT.length))
    | none => none
  else none

/-- `re.sub` with a literal pattern (metacharacter-free) and a literal
replacement. -/
def reSubLit (pat repl s : List Char) : List Char :=
  replaceGo (stepLit pat repl) s.length s

/-- `re.sub(r'open[^<]*close', repl, s)` with a literal replacement. -/
def reSubTagNoLt (openT closeT repl s : List Char) : List Char :=
  replaceGo (stepTagNoLt openT closeT repl) s.length s

/-- `re.sub(r'open.*?close', repl, s, flags=re.DOTALL)` with a literal
replacement. -/
def reSubTagDotall (openT closeT repl s : List Char) : List Char :=
  replaceGo (stepTagDotall openT closeT repl) s.length s

/-! ## The container template (`PDFToSVGConverter.create_svg_template`)

The f-string from `pdf_to_svg.py` lines 115-236, split at its interpolation
points.  `filename`, `creation_time` and the PDF-metadata JSON are parameters
(the basename, `datetime.now().isoformat()` and `json.dumps(metadata)` of
the Python code); `{metadata.get('pages', 0)}` is the `pagesStr` parameter;
`creation_time[:10]` and `creation_time[:16]` are `.take`.  Literal braces of
the generated JavaScript (Python `{{` / `}}`) appear as brace characters in
the output. -/

def tplA : List Char :=
  ("<?xml version=\"1.0\" encoding=\"UTF-8\"?>\n<svg xmlns=\"http://www.w3.org/2000/svg\" \n     xmlns:xlink=\"http://www.w3.org/1999/xlink\"\n     xmlns:veridock=\"http://veridock.com/ns\"\n     width=\"800\" height=\"600\" viewBox=\"0 0 800 600\">\n\n  <!-- VeriDock Metadata -->\n  <metadata>\n    <veridock:document>\n      <veridock:filename>").toList

def tplB : List Char :=
  ("</veridock:filename>\n      <veridock:creation_time>").toList

def tplC : List Char :=
  ("</veridock:creation_time>\n      <veridock:pages>").toList

def tplD : List Char :=
  ("</veridock:pages>\n      <veridock:pdf_metadata>").toList

/-- Up to (and excluding) the `data:application/pdf;base64,` marker, which
is split out as `pdfMarker` below. -/
def tplE : List Char :=
  ("</veridock:pdf_metadata>\n      <veridock:ocr_status>pending</veridock:ocr_status>\n      <veridock:ocr_data></veridock:ocr_data>\n    </veridock:document>\n  </metadata>\n\n  <!-- Osadzony PDF jako data URI -->\n  <defs>\n    <veridock:pdf_data id=\"original_pdf\">\n      ").toList

/-- The pattern prefix of `r'data:application/pdf;base64,([A-Za-z0-9+/=]+)'`. -/
def pdfMarker : List Char := ("data:application/pdf;base64,").toList

def tplF : List Char :=
  ("\n    </veridock:pdf_data>\n\n    <!-- Grid miniaturek -->\n    <veridock:thumbnail_grid id=\"thumbnail_grid\">\n      data:image/png;base64,").toList

def tplG : List Char :=
  ("\n    </veridock:thumbnail_grid>\n  </defs>\n\n  <!-- Interfejs SVG -->\n  <rect width=\"800\" height=\"600\" fill=\"#f5f5f5\" stroke=\"#ddd\" stroke-width=\"1\"/>\n\n  <!-- Nagłówek -->\n  <rect x=\"0\" y=\"0\" width=\"800\" height=\"80\" fill=\"#2c3e50\"/>\n  <text x=\"20\" y=\"30\" fill=\"white\" font-family=\"Arial\" font-size=\"18\" font-weight=\"bold\">\n    VeriDock Document\n  </text>\n  <text x=\"20\" y=\"55\" fill=\"#ecf0f1\" font-family=\"Arial\" font-size=\"12\">\n    ").toList

def tplH : List Char :=
  ("\n  </text>\n\n  <!-- Miniaturki -->\n  <g id=\"thumbnail_display\">\n    <rect x=\"20\" y=\"100\" width=\"360\" height=\"480\" fill=\"white\" stroke=\"#bdc3c7\" stroke-width=\"1\"/>\n    <text x=\"200\" y=\"130\" text-anchor=\"middle\" font-family=\"Arial\" font-size=\"14\" fill=\"#7f8c8d\">\n      Miniaturki stron\n    </text>\n\n    <!-- Tutaj będą wyświetlane miniaturki -->\n    <image x=\"30\" y=\"150\" width=\"340\" height=\"300\" \n           href=\"data:image/png;base64,").toList

def tplI : List Char :=
  ("\"\n           style=\"object-fit: contain\"/>\n  </g>\n\n  <!-- Panel kontrolny -->\n  <g id=\"control_panel\">\n    <rect x=\"400\" y=\"100\" width=\"380\" height=\"480\" fill=\"white\" stroke=\"#bdc3c7\" stroke-width=\"1\"/>\n    <text x=\"590\" y=\"130\" text-anchor=\"middle\" font-family=\"Arial\" font-size=\"14\" fill=\"#2c3e50\">\n      Opcje dokumentu\n    </text>\n\n    <!-- Przyciski -->\n    <rect x=\"420\" y=\"150\" width=\"100\" height=\"30\" fill=\"#3498db\" rx=\"5\"/>\n    <text x=\"470\" y=\"170\" text-anchor=\"middle\" fill=\"white\" font-family=\"Arial\" font-size=\"12\">\n      Otwórz PDF\n    </text>\n\n    <rect x=\"540\" y=\"150\" width=\"100\" height=\"30\" fill=\"#27ae60\" rx=\"5\"/>\n    <text x=\"590\" y=\"170\" text-anchor=\"middle\" fill=\"white\" font-family=\"Arial\" font-size=\"12\">\n      Eksportuj OCR\n    </text>\n\n    <rect x=\"660\" y=\"150\" width=\"100\" height=\"30\" fill=\"#e74c3c\" rx=\"5\"/>\n    <text x=\"710\" y=\"170\" text-anchor=\"middle\" fill=\"white\" font-family=\"Arial\" font-size=\"12\">\n      Usuń\n    </text>\n\n    <!-- Informacje -->\n    <text x=\"420\" y=\"220\" font-family=\"Arial\" font-size=\"11\" fill=\"#7f8c8d\">\n      Status OCR: <tspan fill=\"#f39c12\">Oczekuje</tspan>\n    </text>\n    <text x=\"420\" y=\"240\" font-family=\"Arial\" font-size=\"11\" fill=\"#7f8c8d\">\n      Ostatnia aktualizacja: ").toList

def tplJ : List Char :=
  ("\n    </text>\n  </g>\n\n  <!-- JavaScript dla interakcji -->\n  <script type=\"text/javascript\">\n    <![CDATA[\n      function openPDF() \x7b\n        const pdfData = document.getElementById('original_pdf').textContent;\n        const blob = new Blob([atob(pdfData.split(',')[1])], \x7btype: 'application/pdf'\x7d);\n        const url = URL.createObjectURL(blob);\n        window.open(url, '_blank');\n      \x7d\n\n      function exportOCR() \x7b\n        const ocrData = document.querySelector('veridock\\:ocr_data').textContent;\n        if (ocrData) \x7b\n          const blob = new Blob([ocrData], \x7btype: 'text/plain'\x7d);\n          const url = URL.createObjectURL(blob);\n          const a = document.createElement('a');\n          a.href = url;\n          a.download = '").toList

def tplK : List Char :=
  ("_ocr.txt';\n          a.click();\n        \x7d else \x7b\n          alert('OCR jeszcze nie został przetworzony');\n        \x7d\n      \x7d\n\n      document.addEventListener('DOMContentLoaded', function() \x7b\n        const openBtn = document.querySelector('rect[fill=\"#3498db\"]');\n        const exportBtn = document.querySelector('rect[fill=\"#27ae60\"]');\n\n        if (openBtn) openBtn.addEventListener('click', openPDF);\n        if (exportBtn) exportBtn.addEventListener('click', exportOCR);\n      \x7d);\n    ]]>\n  </script>\n\n</svg>").toList

/-- `create_svg_template(pdf_path, pdf_base64, thumbnail_grid, metadata)`:
the full container text.  `filename = os.path.basename(pdf_path)`,
`creationTime = datetime.now().isoformat()`, `pagesStr` the decimal
rendering of `metadata.get('pages', 0)` and `pdfMetaJson = json.dumps(metadata)`
are taken as string parameters. -/
def create_svg_template (filename creationTime pagesStr pdfMetaJson
    pdfB64 thumbnailGrid : List Char) : List Char :=
  tplA ++ filename ++ tplB ++ creationTime ++ tplC ++ pagesStr ++ tplD ++ pdfMetaJson
    ++ tplE ++ pdfMarker ++ pdfB64
    ++ tplF ++ thumbnailGrid
    ++ tplG ++ filename ++ (" • ").toList ++ pagesStr ++ (" stron • ").toList
    ++ creationTime.take 10
    ++ tplH ++ thumbnailGrid
    ++ tplI ++ creationTime.take 16
    ++ tplJ ++ filename ++ tplK

/-- The prefix of the generated container that precedes the PDF payload. -/
def tplPrefix (filename creationTime pagesStr pdfMetaJson : List Char) : List Char :=
  tplA ++ filename ++ tplB ++ creationTime ++ tplC ++ pagesStr ++ tplD ++ pdfMetaJson
    ++ tplE

/-- Everything after the PDF payload in the generated container. -/
def tplSuffix (filename creationTime pagesStr thumbnailGrid : List Char) : List Char :=
  tplF ++ thumbnailGrid
    ++ tplG ++ filename ++ (" • ").toList ++ pagesStr ++ (" stron • ").toList
    ++ creationTime.take 10
    ++ tplH ++ thumbnailGrid
    ++ tplI ++ creationTime.take 16
    ++ tplJ ++ filename ++ tplK

/-! ## PDF extraction (`SVGOperations.extract_pdf_from_svg`) -/

/-- Does `r'data:application/pdf;base64,([A-Za-z0-9+/=]+)'` match at the head
of `s`?  (The group needs at least one character.) -/
def pdfMatchAt (s : List Char) : Bool :=
  pdfMarker.isPrefixOf s && !((s.drop pdfMarker.length).takeWhile isB64Char).isEmpty

/-- `re.search` of the PDF data-URI pattern: at the leftmost match, the
greedy group is the maximal run of `[A-Za-z0-9+/=]` after the marker. -/
def extractPdfB64 : List Char → Option (List Char)
  | [] => none
  | c :: cs =>
      if pdfMatchAt (c :: cs) then
        some (((c :: cs).drop pdfMarker.length).takeWhile isB64Char)
      else extractPdfB64 cs

/-- No match of the PDF data-URI pattern starts at a position `< n`. -/
def noPdfMatchBefore : List Char → Nat → Bool
  | _, 0 => true
  | [], _ + 1 => true
  | c :: cs, n + 1 => !pdfMatchAt (c :: cs) && noPdfMatchBefore cs n

/-- The decode step of `SVGOperations.extract_pdf_from_svg`: find the
leftmost `data:application/pdf;base64,<run>` match and `base64.b64decode`
the captured run (the write-to-file step carries these bytes unchanged). -/
def extract_pdf_from_svg (svg : List Char) : Option (List Nat) :=
  match extractPdfB64 svg with
  | none => none
  | some g => b64decode g

/-! ## Thumbnail grid layout (`PDFToPNGConverter.create_thumbnail_matrix`,
and the identical layout computation of
`PDFToSVGConverter.generate_thumbnail_grid`) -/

/-- One entry of the `page_positions` list recorded in the thumbnail
metadata. -/
structure PagePosition where
  page : Nat
  x : Nat
  y : Nat
  width : Nat
  height : Nat
deriving Repr, DecidableEq

/-- `cols = min(max_cols, len(thumbnails))`. -/
def gridCols (maxCols n : Nat) : Nat := min maxCols n

/-- `rows = (len(thumbnails) + cols - 1) // cols`. -/
def gridRows (n cols : Nat) : Nat := (n + cols - 1) / cols

/-- The paste offset of the placement loop: `col = i % cols`,
`row = i // cols`, `(x, y) = (col * tileW, row * tileH)`. -/
def pasteOffset (cols tileW tileH i : Nat) : Nat × Nat :=
  (i % cols * tileW, i / cols * tileH)

/-- The `page_positions` metadata recorded by the same loop
(`page = i + 1`, the paste offset, and the fixed tile size). -/
def pagePositions (n cols tileW tileH : Nat) : List PagePosition :=
  (List.range n).map (fun i =>
    { page := i + 1, x := i % cols * tileW, y := i / cols * tileH,
      width := tileW, height := tileH })

/-! ## File system, discovery and the daemon cycle
(`veridock_converter.py` together with `PDFToSVGConverter.convert`) -/

/-- A file on disk: path and byte content.  The file system is the list of
files in `os.walk` order over the watched roots; SVG text written by the
converter is stored as its code points. -/
structure FsFile where
  path : List Char
  content : List Nat
deriving Repr, DecidableEq

/-- The watched tree in walk order. -/
abbrev FileSystem : Type := List FsFile

/-- The `processed_files` set of fingerprints. -/
abbrev ProcessedSet : Type := List (List Nat)

/-- `get_file_hash`: md5 of the file's bytes.  The fingerprint is modelled
as the byte content itself: the code uses hashes only through equality, and
md5 is abstracted as an injective content fingerprint. -/
def get_file_hash (content : List Nat) : List Nat := content

/-- `file.lower().endswith('.pdf')` (ASCII lowering). -/
def lowerEndsWithPdf (p : List Char) : Bool :=
  (".pdf").toList.isSuffixOf (p.map Char.toLower)

/-- `VeriDockConverter.find_pdf_files`: every `.pdf` file in walk order whose
fingerprint is not in the processed set. -/
def find_pdf_files (fs : FileSystem) (processed : ProcessedSet) : List (List Char) :=
  (fs.filter (fun f => lowerEndsWithPdf f.path
      && !processed.contains (get_file_hash f.content))).map FsFile.path

/-- `os.path.join(output_dir, pdf_name + '.svg')` for a candidate ending in
a four-character `.pdf` extension: the extension is replaced by `.svg`. -/
def splitextSvg (p : List Char) : List Char :=
  p.take (p.length - 4) ++ (".svg").toList

/-- `os.path.basename`. -/
def basenameOf (p : List Char) : List Char :=
  (p.reverse.takeWhile (fun c => c ≠ '/')).reverse

/-- `open(path, 'w')`: replaces any previous file at that path. -/
def writeFile (fs : FileSystem) (p : List Char) (content : List Nat) : FileSystem :=
  (fs.filter (fun f => !(f.path == p))) ++ [⟨p, content⟩]

/-- `os.remove`. -/
def removeFile (fs : FileSystem) (p : List Char) : FileSystem :=
  fs.filter (fun f => !(f.path == p))

/-- External capabilities consumed by Convert and the daemon:
`readOk` — whether reading the source bytes succeeds (`pdf_to_base64`
returns `''` on failure); `raster` — `generate_thumbnail_grid`, `none` on
rasterization failure; the PDF-metadata reader outputs (`creationTime`,
`pagesStr`, `metaJson`, degrading rather than failing); and the
file-system effect of `PDFToPNGConverter.generate_thumbnails(pdf, svg)`
(whose return value `process_pdf` ignores). -/
structure DaemonCaps where
  readOk : List Nat → Bool
  raster : List Nat → Option (List Char)
  creationTime : List Char
  pagesStr : List Nat → List Char
  metaJson : List Nat → List Char
  thumbEffect : FileSystem → List Char → List Char → FileSystem

/-- The bytes of the container that `convert` writes for a given source. -/
def container_bytes (caps : DaemonCaps) (pdfPath : List Char) (content : List Nat)
    (grid : List Char) : List Nat :=
  (create_svg_template (basenameOf pdfPath) caps.creationTime
    (caps.pagesStr content) (caps.metaJson content) (b64encode content) grid).map
    Char.toNat

/-- `PDFToSVGConverter.convert`: missing file, failed base64 encoding
(which also covers an empty source, since `b64encode [] = []` is falsy) or
failed rasterization yield `None` with the file system untouched; otherwise
the single final write stores the complete container. -/
def convert (caps : DaemonCaps) (fs : FileSystem) (pdfPath : List Char) :
    Option (List Char) × FileSystem :=
  match fs.find? (fun f => f.path == pdfPath) with
  | none => (none, fs)
  | some f =>
      let pdfB64 := if caps.readOk f.content then b64encode f.content else []
      if pdfB64.isEmpty then (none, fs)
      else
        match caps.raster f.content with
        | none => (none, fs)
        | some grid =>
            let svgPath := splitextSvg pdfPath
            (some svgPath, writeFile fs svgPath
              (container_bytes caps pdfPath f.content grid))

/-- `VeriDockConverter.process_pdf`: convert; on success run the thumbnail
generator (result ignored), re-read the file for its fingerprint, add it to
the processed set, delete the original, report `True`.  Any failure is
caught and reported as `False`. -/
def process_pdf (caps : DaemonCaps) (fs : FileSystem) (processed : ProcessedSet)
    (pdfPath : List Char) : Bool × FileSystem × ProcessedSet :=
  match convert caps fs pdfPath with
  | (none, fs1) => (false, fs1, processed)
  | (some svgPath, fs1) =>
      let fs2 := caps.thumbEffect fs1 pdfPath svgPath
      match fs2.find? (fun f => f.path == pdfPath) with
      | none => (false, fs2, processed)
      | some f =>
          let h := get_file_hash f.content
          let processed2 := if processed.contains h
            then processed else processed ++ [h]
          (true, removeFile fs2 pdfPath, processed2)

/-- One iteration of the daemon loop (`run_daemon` body without the OCR
tick): discover once, then process every discovered candidate in order. -/
def run_cycle (caps : DaemonCaps) (fs : FileSystem) (processed : ProcessedSet) :
    FileSystem × ProcessedSet :=
  (find_pdf_files fs processed).foldl
    (fun st p =>
      let r := process_pdf caps st.1 st.2 p
      (r.2.1, r.2.2))
    (fs, processed)

/-! ## Container metadata operations (`svg_operations.py`, `ocr_processor.py`) -/

/-- `<veridock:key>` for the metadata-update patterns. -/
def vdOpen (k : List Char) : List Char :=
  ("<veridock:").toList ++ k ++ (">").toList

/-- `</veridock:key>`. -/
def vdClose (k : List Char) : List Char :=
  ("</veridock:").toList ++ k ++ (">").toList

def statusOpen : List Char := ("<veridock:ocr_status>").toList

def statusClose : List Char := ("</veridock:ocr_status>").toList

def ocrOpen : List Char := ("<veridock:ocr_data>").toList

def ocrClose : List Char := ("</veridock:ocr_data>").toList

def thumbOpen : List Char := ("<veridock:thumbnail_metadata>").toList

def thumbClose : List Char := ("</veridock:thumbnail_metadata>").toList

def docCloseMarker : List Char := ("</veridock:document>").toList

/-- The substring `process_svg` checks for its idempotent short-circuit. -/
def completedMarker : List Char :=
  ("ocr_status>completed</veridock:ocr_status>").toList

/-- The replacement `update_svg_with_ocr` and `import_svg_data` write for
the status element. -/
def statusCompletedElem : List Char :=
  ("<veridock:ocr_status>completed</veridock:ocr_status>").toList

/-- Pattern of the interface substitution in `update_svg_with_ocr`
(literal, no regex metacharacters). -/
def ifacePending : List Char :=
  ("Status OCR: <tspan fill=\"#f39c12\">Oczekuje</tspan>").toList

def ifaceDone : List Char :=
  ("Status OCR: <tspan fill=\"#27ae60\">Zakończono</tspan>").toList

/-- The whitelist of `update_svg_metadata`. -/
def allowedMetaKeys : List (List Char) :=
  [("filename").toList, ("creation_time").toList, ("pages").toList,
   ("ocr_status").toList]

/-- One `re.sub(f'<veridock:{key}>[^<]*</veridock:{key}>', …)` of the
update loop.  The replacement is taken literally; theorems about it carry a
no-backslash hypothesis on the value, under which Python's
replacement-escape processing is the identity. -/
def updateSvgField (key value svg : List Char) : List Char :=
  reSubTagNoLt (vdOpen key) (vdClose key) (vdOpen key ++ value ++ vdClose key) svg

/-- `SVGOperations.update_svg_metadata`: iterate over the supplied
(key, value) pairs in insertion order, substituting whitelisted keys only. -/
def update_svg_metadata (updates : List (List Char × List Char))
    (svg : List Char) : List Char :=
  updates.foldl
    (fun s kv => if allowedMetaKeys.contains kv.1 then updateSvgField kv.1 kv.2 s else s)
    svg

/-- `OCRProcessor.update_svg_with_ocr`, text-transformation part; the
serialized `ocr_json` (processing date, pages, summary) is a parameter. -/
def update_svg_with_ocr (ocrJson svg : List Char) : List Char :=
  let s1 := reSubTagNoLt statusOpen statusClose statusCompletedElem svg
  let s2 :=
    if containsSub ocrOpen s1 then
      reSubTagDotall ocrOpen ocrClose (ocrOpen ++ ocrJson ++ ocrClose) s1
    else
      insertBefore docCloseMarker
        (("      ").toList ++ ocrOpen ++ ocrJson ++ ocrClose ++ ("\x0a    ").toList) s1
  reSubLit ifacePending ifaceDone s2

/-- `OCRProcessor.process_svg`: the OCR capability maps the extracted PDF
bytes to the serialized OCR JSON; `none` covers both rasterization failure
(`pdf_to_images_for_ocr` returning `[]`) and empty OCR results.  Returns the
reported success together with the (possibly rewritten) container text. -/
def process_svg (cap : List Nat → Option (List Char)) (svg : List Char) :
    Bool × List Char :=
  if containsSub completedMarker svg then (true, svg)
  else
    match extract_pdf_from_svg svg with
    | none => (false, svg)
    | some pdf =>
        if pdf.isEmpty then (false, svg)
        else
          match cap pdf with
          | none => (false, svg)
          | some ocrJson => (true, update_svg_with_ocr ocrJson svg)

/-- `SVGOperations.import_svg_data`, text part: an import bundle with
optional serialized `ocr_data` and `thumbnail_metadata` JSON texts; the OCR
branch also forces the status to `completed`. -/
def import_svg_data (ocrJson? thumbJson? : Option (List Char))
    (svg : List Char) : List Char :=
  let s1 := match ocrJson? with
    | none => svg
    | some j =>
        let t := if containsSub ocrOpen svg then
            reSubTagDotall ocrOpen ocrClose (ocrOpen ++ j ++ ocrClose) svg
          else
            insertBefore docCloseMarker
              (("      ").toList ++ ocrOpen ++ j ++ ocrClose ++ ("\x0a    ").toList) svg
        reSubTagNoLt statusOpen statusClose statusCompletedElem t
  match thumbJson? with
  | none => s1
  | some j =>
      if containsSub thumbOpen s1 then
        reSubTagDotall thumbOpen thumbClose (thumbOpen ++ j ++ thumbClose) s1
      else
        insertBefore docCloseMarker
          (("      ").toList ++ thumbOpen ++ j ++ thumbClose ++ ("\x0a    ").toList) s1

/-- Content of the first `open[^<]*close` element (as `get_svg_metadata`
reads the status field, modulo its `+` which also requires the content
nonempty — read off by the caller). -/
def firstTagContentNoLt (openT closeT : List Char) : List Char → Option (List Char)
  | [] => none
  | c :: cs =>
      if openT.isPrefixOf (c :: cs) then
        let r := (c :: cs).drop openT.length
        let content := r.takeWhile (fun ch => ch ≠ '<')
        if closeT.isPrefixOf (r.drop content.length) then some content
        else firstTagContentNoLt openT closeT cs
      else firstTagContentNoLt openT closeT cs

/-- Content of the first `open(.*?)close` match under DOTALL (as
`export_svg_data` / `export_ocr_text` read the OCR bundle). -/
def firstTagContentDotall (openT closeT : List Char) : List Char → Option (List Char)
  | [] => none
  | c :: cs =>
      if openT.isPrefixOf (c :: cs) then
        match firstIdx closeT ((c :: cs).drop openT.length) with
        | some i => some (((c :: cs).drop openT.length).take i)
        | none => firstTagContentDotall openT closeT cs
      else firstTagContentDotall openT closeT cs

/-- The invariant of C2: a container whose `ocr_status` field reads
`completed` carries a nonempty `ocr_data` bundle. -/
def OcrInvariant (s : List Char) : Prop :=
  firstTagContentNoLt statusOpen statusClose s = some (("completed").toList) →
  ∃ d, firstTagContentDotall ocrOpen ocrClose s = some d ∧ d ≠ []

/-! ## OCR word processing (`OCRProcessor.process_image_ocr`,
`OCRProcessor.generate_ocr_summary`) -/

/-- Whitespace characters recognised by Python `str.strip()` (ASCII set). -/
def isPySpace (c : Char) : Bool :=
  c = ' ' || c = '\t' || c = '\x0a' || c = '\x0d' || c = '\x0b' || c = '\x0c'

/-- Python `str.strip()`. -/
def pyStrip (s : List Char) : List Char :=
  ((s.dropWhile isPySpace).reverse.dropWhile isPySpace).reverse

/-- One index of the parallel lists returned by
`pytesseract.image_to_data`; `conf` is `int(data['conf'][i])`, which is
`-1` for non-word boxes. -/
structure RawWord where
  text : List Char
  conf : Int
  left : Int
  top : Int
  width : Int
  height : Int
deriving Repr, DecidableEq

/-- The `bbox` dictionary of a retained word. -/
structure BBox where
  x : Int
  y : Int
  width : Int
  height : Int
deriving Repr, DecidableEq

/-- A retained `word_data` entry. -/
structure OcrWord where
  text : List Char
  confidence : Int
  bbox : BBox
deriving Repr, DecidableEq

/-- The word loop of `process_image_ocr`: keep index `i` when
`int(data['conf'][i]) > 30` and the stripped text is nonempty; the retained
entry carries the stripped text, the confidence and the bounding box. -/
def filterWords : List RawWord → List OcrWord
  | [] => []
  | w :: ws =>
      if w.conf > 30 then
        if (pyStrip w.text).isEmpty then filterWords ws
        else ⟨pyStrip w.text, w.conf, ⟨w.left, w.top, w.width, w.height⟩⟩
          :: filterWords ws
      else filterWords ws

/-- One per-page OCR result (the wall-clock `timestamp` field is omitted). -/
structure PageResult where
  page : Nat
  text : List Char
  words : List OcrWord
  word_count : Nat
  confidence_avg : ℚ
deriving Repr, DecidableEq

/-- `process_image_ocr`, success path: `fullText` is the page text from
`pytesseract.image_to_string`, `raw` the structural word data.  The Python
float average is modelled as an exact rational (`0` when no retained
words). -/
def process_image_ocr (pageNumber : Nat) (fullText : List Char)
    (raw : List RawWord) : PageResult :=
  let words := filterWords raw
  { page := pageNumber
    text := pyStrip fullText
    words := words
    word_count := words.length
    confidence_avg :=
      if words.isEmpty then 0
      else ((words.map (fun w => (w.confidence : ℚ))).sum) / words.length }

/-- `word['text'].lower()`. -/
def lowerStr (s : List Char) : List Char := s.map Char.toLower

/-- One `word_freq[word] = word_freq.get(word, 0) + 1` update; Python dicts
preserve insertion order. -/
def freqInsert (acc : List (List Char × Nat)) (w : List Char) :
    List (List Char × Nat) :=
  if acc.any (fun kv => kv.1 = w) then
    acc.map (fun kv => if kv.1 = w then (kv.1, kv.2 + 1) else kv)
  else acc ++ [(w, 1)]

/-- The document-level summary (`languages_detected` is a configuration
constant and is omitted; the float rounding `round(avg, 2)` is not modelled
— the average is kept exact). -/
structure OcrSummary where
  total_pages : Nat
  total_words : Nat
  total_characters : Nat
  average_confidence : ℚ
  pages_with_text : Nat
  top_words : List (List Char × Nat)
deriving Repr, DecidableEq

/-- `OCRProcessor.generate_ocr_summary`, success path.  `sorted(...,
key=lambda x: x[1], reverse=True)` is a stable descending sort by count
(ties keep insertion order), reproduced by a stable merge sort with the
order `b.2 ≤ a.2`. -/
def generate_ocr_summary (results : List PageResult) : OcrSummary :=
  let total_words := (results.map (fun r => r.word_count)).sum
  let total_chars := (results.map (fun r => r.text.length)).sum
  let confidences : List Int :=
    (results.map (fun r => r.words.map (fun w => w.confidence))).flatten
  let avg_confidence : ℚ :=
    if confidences.isEmpty then 0
    else ((confidences.map (fun c => (c : ℚ))).sum) / confidences.length
  let all_words :=
    (results.map (fun r =>
      (r.words.filter (fun w => w.text.length > 3)).map
        (fun w => lowerStr w.text))).flatten
  let word_freq := all_words.foldl freqInsert []
  let top_words := (word_freq.mergeSort (fun a b => b.2 ≤ a.2)).take 10
  { total_pages := results.length
    total_words := total_words
    total_characters := total_chars
    average_confidence := avg_confidence
    pages_with_text := (results.filter (fun r => !(pyStrip r.text).isEmpty)).length
    top_words := top_words }

/-! ## Validation (`SVGOperations.validate_svg`) -/

/-- `re.search(f'open[^<]+close', s)`: content of the first match whose
content is NONEMPTY (a position with an empty run between the tags does not
match `[^<]+` and scanning continues past it). -/
def firstTagContentNonEmpty (openT closeT : List Char) :
    List Char → Option (List Char)
  | [] => none
  | c :: cs =>
      if openT.isPrefixOf (c :: cs) then
        let r := (c :: cs).drop openT.length
        let content := r.takeWhile (fun ch => ch ≠ '<')
        if !content.isEmpty && closeT.isPrefixOf (r.drop content.length) then
          some content
        else firstTagContentNonEmpty openT closeT cs
      else firstTagContentNonEmpty openT closeT cs

/-- The validation report.  The `metadata` dictionary of the source is
omitted: its value never influences `valid`, `errors` or `warnings`. -/
structure ValidationResult where
  valid : Bool
  errors : List (List Char)
  warnings : List (List Char)
deriving Repr, DecidableEq

/-- The namespace declaration `validate_svg` requires. -/
def nsDecl : List Char :=
  ("xmlns:veridock=\"http://veridock.com/ns\"").toList

/-- `required_fields = ['filename', 'creation_time', 'pages']`. -/
def requiredFields : List (List Char) :=
  [("filename").toList, ("creation_time").toList, ("pages").toList]

/-- `SVGOperations.validate_svg`, with the file's existence and its text as
inputs.  All checks are total (the model never throws, matching the
source's catch-all handler which still returns a structured report); errors
and warnings are appended in source order and `valid` is set to "the error
list is empty" at the end. -/
def validate_svg (fileExists : Bool) (svg : List Char) : ValidationResult :=
  if fileExists then
    let e1 := if containsSub nsDecl svg then []
      else [("Brak namespace VeriDock").toList]
    let e2 := if containsSub (("<veridock:document>").toList) svg then []
      else [("Brak sekcji metadanych dokumentu").toList]
    let e3 := if containsSub (("<veridock:pdf_data").toList) svg then []
      else [("Brak osadzonych danych PDF").toList]
    let e4 := (requiredFields.map (fun f =>
      if (firstTagContentNonEmpty (vdOpen f) (vdClose f) svg).isSome then []
      else [("Brak wymaganego pola: ").toList ++ f])).flatten
    let ew5 : List (List Char) × List (List Char) :=
      match extractPdfB64 svg with
      | none => ([], [])
      | some g =>
          match b64decode g with
          | none => ([("Nieprawidłowe dane PDF base64").toList], [])
          | some bytes =>
              if bytes.length < 100 then
                ([], [("Podejrzanie mały rozmiar PDF").toList])
              else ([], [])
    let w6 :=
      match firstTagContentNonEmpty statusOpen statusClose svg with
      | some st =>
          if st = ("completed").toList then
            if containsSub (("<veridock:ocr_data>").toList) svg then []
            else [("Status OCR = completed, ale brak danych OCR").toList]
          else []
      | none => []
    let errors := e1 ++ e2 ++ e3 ++ e4 ++ ew5.1
    { valid := errors.isEmpty, errors := errors, warnings := ew5.2 ++ w6 }
  else
    { valid := false, errors := [("Plik nie istnieje").toList], warnings := [] }

/-- A minimal container: namespace declaration, document metadata block
with nonempty `filename` / `creation_time` / `pages`, status `pending`, and
an embedded payload encoding 102 bytes (so the decode succeeds above the
100-byte sanity threshold). -/
def minimalContainer : List Char :=
  ("<svg xmlns:veridock=\"http://veridock.com/ns\"><metadata><veridock:document><veridock:filename>doc.pdf</veridock:filename><veridock:creation_time>2024-01-01T00:00:00</veridock:creation_time><veridock:pages>1</veridock:pages><veridock:ocr_status>pending</veridock:ocr_status></veridock:document></metadata><defs><veridock:pdf_data id=\"original_pdf\">data:application/pdf;base64,").toList
    ++ b64encode (List.replicate 102 37)
    ++ ("</veridock:pdf_data></defs></svg>").toList

/-! ## Concrete fixtures used by witnesses and counterexamples -/

/-- Capabilities whose source read fails (`pdf_to_base64` returns `''`). -/
def capsNoRead : DaemonCaps :=
  ⟨fun _ => false, fun _ => none, [], fun _ => [], fun _ => [],
   fun fs _ _ => fs⟩

/-- Fully working capabilities; thumbnail generation performs no file-system
writes (its rasterization failing inside `generate_thumbnails` is a real
execution whose return value `process_pdf` ignores). -/
def capsOk : DaemonCaps :=
  ⟨fun _ => true, fun _ => some ("GRID").toList, ("2024-01-01T00:00:00").toList,
   fun _ => ("1").toList, fun _ => ("\x7b\"pages\": 1\x7d").toList,
   fun fs _ _ => fs⟩

/-- Two files with identical bytes under different names. -/
def fsDup : FileSystem :=
  [⟨("x/a.pdf").toList, [1, 2]⟩, ⟨("x/b.pdf").toList, [1, 2]⟩]

/-- A single unprocessed candidate. -/
def fsOne : FileSystem := [⟨("x/a.pdf").toList, [9]⟩]

/-! # Part 2: theorems -/

/-! ## Base64 lemmas -/

theorem dec6_enc6 : ∀ n < 64, dec6 (enc6 n) = some n := by decide

theorem isB64Char_enc6 : ∀ n < 64, isB64Char (enc6 n) = true := by decide

theorem enc6_ne_pad : ∀ n < 64, ¬ enc6 n = '=' := by decide

theorem b64_roundtrip (l : List Nat) (h : ∀ x ∈ l, x < 256) :
    b64decode (b64encode l) = some l := by
  induction l using b64encode.induct with
  | case1 => simp [b64encode, b64decode]
  | case2 a =>
      have ha : a < 256 := h a (by simp)
      have h1 : a / 4 < 64 := by omega
      have h2 : a % 4 * 16 < 64 := by omega
      simp only [b64encode, b64decode, dec6_enc6 _ h1, dec6_enc6 _ h2]
      norm_num
      omega
  | case3 a b =>
      have ha : a < 256 := h a (by simp)
      have hb : b < 256 := h b (by simp)
      have h1 : a / 4 < 64 := by omega
      have h2 : a % 4 * 16 + b / 16 < 64 := by omega
      have h3 : b % 16 * 4 < 64 := by omega
      simp only [b64encode, b64decode, dec6_enc6 _ h1, dec6_enc6 _ h2, dec6_enc6 _ h3,
        if_neg (enc6_ne_pad _ h3)]
      norm_num
      set y := a % 4 * 16 + b / 16 with hy
      omega
  | case4 a b c rest ih =>
      have ha : a < 256 := h a (by simp)
      have hb : b < 256 := h b (by simp)
      have hc : c < 256 := h c (by simp)
      have h1 : a / 4 < 64 := by omega
      have h2 : a % 4 * 16 + b / 16 < 64 := by omega
      have h3 : b % 16 * 4 + c / 64 < 64 := by omega
      have h4 : c % 64 < 64 := by omega
      have ihh := ih (fun x hx => h x (by simp [hx]))
      simp only [b64encode, b64decode, dec6_enc6 _ h1, dec6_enc6 _ h2, dec6_enc6 _ h3,
        dec6_enc6 _ h4, if_neg (enc6_ne_pad _ h3), if_neg (enc6_ne_pad _ h4), ihh,
        Option.some.injEq, List.cons.injEq, and_true]
      set y := a % 4 * 16 + b / 16 with hy
      set z := b % 16 * 4 + c / 64 with hz
      omega

/-- Every character of an encoded byte string lies in `[A-Za-z0-9+/=]`. -/
theorem b64encode_all_b64 (l : List Nat) (h : ∀ x ∈ l, x < 256) :
    ∀ c ∈ b64encode l, isB64Char c = true := by
  induction l using b64encode.induct with
  | case1 => intro c hc; simp [b64encode] at hc
  | case2 a =>
      have ha : a < 256 := h a (by simp)
      intro c hc
      simp only [b64encode, List.mem_cons, List.not_mem_nil, or_false] at hc
      rcases hc with h' | h' | h' | h' <;> subst h'
      · exact isB64Char_enc6 _ (by omega)
      · exact isB64Char_enc6 _ (by omega)
      · decide
      · decide
  | case3 a b =>
      have ha : a < 256 := h a (by simp)
      have hb : b < 256 := h b (by simp)
      intro c hc
      simp only [b64encode, List.mem_cons, List.not_mem_nil, or_false] at hc
      rcases hc with h' | h' | h' | h' <;> subst h'
      · exact isB64Char_enc6 _ (by omega)
      · exact isB64Char_enc6 _ (by omega)
      · exact isB64Char_enc6 _ (by omega)
      · decide
  | case4 a b c rest ih =>
      have ha : a < 256 := h a (by simp)
      have hb : b < 256 := h b (by simp)
      have hc' : c < 256 := h c (by simp)
      intro x hx
      simp only [b64encode, List.mem_cons] at hx
      rcases hx with h' | h' | h' | h' | h'
      · subst h'; exact isB64Char_enc6 _ (by omega)
      · subst h'; exact isB64Char_enc6 _ (by omega)
      · subst h'; exact isB64Char_enc6 _ (by omega)
      · subst h'; exact isB64Char_enc6 _ (by omega)
      · exact ih (fun y hy => h y (by simp [hy])) x h'

/-- A nonempty byte string has a nonempty encoding. -/
theorem b64encode_ne_nil (l : List Nat) (h : l ≠ []) : b64encode l ≠ [] := by
  match l, h with
  | [a], _ => simp [b64encode]
  | [a, b], _ => simp [b64encode]
  | a :: b :: c :: rest, _ => simp [b64encode]

/-! ## Scanner lemmas -/

theorem containsSub_false_not_pref {pat s : List Char}
    (h : containsSub pat s = false) : ∀ i, pat.isPrefixOf (s.drop i) = false := by
  induction s with
  | nil =>
      intro i
      simpa [List.drop_nil] using by simpa [containsSub] using h
  | cons c cs ih =>
      simp only [containsSub, Bool.or_eq_false_iff] at h
      intro i
      match i with
      | 0 => exact h.1
      | i + 1 => exact ih h.2 i

theorem containsSub_of_prefix {pat s : List Char} (h : pat <+: s) :
    containsSub pat s = true := by
  cases s with
  | nil => simp [containsSub, List.isPrefixOf_iff_prefix, h]
  | cons c cs => simp [containsSub, List.isPrefixOf_iff_prefix, h]

theorem containsSub_of_infix {pat s : List Char} (h : pat <:+: s) :
    containsSub pat s = true := by
  obtain ⟨pre, post, rfl⟩ := h
  induction pre with
  | nil => exact containsSub_of_prefix ⟨post, by simp⟩
  | cons c cs ih =>
      simp only [List.cons_append, containsSub, Bool.or_eq_true]
      right
      simpa using ih

theorem containsSub_true_infix {pat s : List Char} (h : containsSub pat s = true) :
    pat <:+: s := by
  induction s with
  | nil =>
      simp only [containsSub, List.isPrefixOf_iff_prefix] at h
      exact h.isInfix
  | cons c cs ih =>
      simp only [containsSub, Bool.or_eq_true, List.isPrefixOf_iff_prefix] at h
      rcases h with h | h
      · exact h.isInfix
      · exact List.infix_cons_iff.mpr (Or.inr (ih h))

theorem noOccBefore_not_pref {pat s : List Char} {n : Nat}
    (h : noOccBefore pat s n = true) :
    ∀ i < n, pat.isPrefixOf (s.drop i) = false := by
  induction n generalizing s with
  | zero => intro i hi; omega
  | succ n ih =>
      match s with
      | [] =>
          simp only [noOccBefore, Bool.not_eq_true'] at h
          intro i _
          simpa [List.drop_nil] using h
      | c :: cs =>
          simp only [noOccBefore, Bool.and_eq_true, Bool.not_eq_true'] at h
          intro i hi
          match i with
          | 0 => exact h.1
          | i + 1 => exact ih h.2 i (by omega)

theorem replaceGo_id {step : List Char → Option (List Char × List Char)}
    {s : List Char} (h : ∀ i, step (s.drop i) = none) :
    ∀ f, replaceGo step f s = s := by
  induction s with
  | nil => intro f; cases f <;> rfl
  | cons c cs ih =>
      intro f
      cases f with
      | zero => rfl
      | succ f =>
          have h0 := h 0
          simp only [List.drop_zero] at h0
          simp only [replaceGo, h0]
          exact congrArg (c :: ·) (ih (fun i => h (i + 1)) f)

theorem replaceGo_skip {step : List Char → Option (List Char × List Char)}
    (x : List Char) :
    ∀ (y : List Char) (f : Nat),
      (∀ i < x.length, step ((x ++ y).drop i) = none) →
      replaceGo step (x.length + f) (x ++ y) = x ++ replaceGo step f y := by
  induction x with
  | nil => intro y f _; simp
  | cons c cs ih =>
      intro y f h
      have h0 := h 0 (by simp)
      simp only [List.cons_append, List.drop_zero] at h0
      have hlen : (c :: cs).length + f = (cs.length + f) + 1 := by simp; omega
      rw [hlen, List.cons_append]
      simp only [replaceGo, List.append_eq, h0]
      exact congrArg (c :: ·) (ih y f (fun i hi => by
        have := h (i + 1) (by simpa using Nat.succ_lt_succ hi)
        simpa using this))

theorem replaceGo_match {step : List Char → Option (List Char × List Char)}
    {c : Char} {cs out rest : List Char} {f : Nat}
    (h : step (c :: cs) = some (out, rest)) :
    replaceGo step (f + 1) (c :: cs) = out ++ replaceGo step f rest := by
  simp [replaceGo, h]

theorem firstIdx_eq {pat s : List Char} {n : Nat}
    (hbefore : ∀ i < n, pat.isPrefixOf (s.drop i) = false)
    (hat : pat.isPrefixOf (s.drop n) = true) :
    firstIdx pat s = some n := by
  induction n generalizing s with
  | zero =>
      cases s with
      | nil => simpa [firstIdx] using hat
      | cons c cs => simpa [firstIdx] using hat
  | succ n ih =>
      have h0 := hbefore 0 (by omega)
      rw [List.drop_zero] at h0
      cases s with
      | nil =>
          rw [List.drop_nil] at hat
          rw [h0] at hat
          exact absurd hat (by simp)
      | cons c cs =>
          have hrec := ih (fun i hi => by
            simpa using hbefore (i + 1) (by omega)) (by simpa using hat)
          simp [firstIdx, h0, hrec]

theorem firstIdx_none {pat s : List Char}
    (h : containsSub pat s = false) : firstIdx pat s = none := by
  have hnp := containsSub_false_not_pref h
  induction s with
  | nil =>
      have h0 := hnp 0
      rw [List.drop_zero] at h0
      simp [firstIdx, h0]
  | cons c cs ih =>
      have h0 := hnp 0
      rw [List.drop_zero] at h0
      have hcs : containsSub pat cs = false := by
        simp only [containsSub, Bool.or_eq_false_iff] at h
        exact h.2
      have hrec := ih hcs (containsSub_false_not_pref hcs)
      simp [firstIdx, h0, hrec]

theorem insertBefore_eq {marker ins a b : List Char}
    (hbefore : ∀ i < a.length, marker.isPrefixOf ((a ++ marker ++ b).drop i) = false) :
    insertBefore marker ins (a ++ marker ++ b) = a ++ ins ++ marker ++ b := by
  have hat : marker.isPrefixOf ((a ++ (marker ++ b)).drop a.length) = true := by
    rw [List.drop_left]
    simp [List.isPrefixOf_iff_prefix]
  have hfi : firstIdx marker (a ++ marker ++ b) = some a.length := by
    apply firstIdx_eq hbefore (by simp only [List.append_assoc]; exact hat)
  have ht : List.take a.length (a ++ marker ++ b) = a := by
    rw [List.append_assoc, List.take_left]
  have hd : List.drop a.length (a ++ marker ++ b) = marker ++ b := by
    rw [List.append_assoc, List.drop_left]
  simp only [insertBefore, hfi, ht, hd]
  simp [List.append_assoc]

theorem insertBefore_id {marker ins s : List Char}
    (h : containsSub marker s = false) : insertBefore marker ins s = s := by
  simp [insertBefore, firstIdx_none h]

theorem stepLit_none {pat repl t : List Char}
    (h : pat.isPrefixOf t = false) : stepLit pat repl t = none := by
  simp [stepLit, h]

theorem stepTagNoLt_none {openT closeT repl t : List Char}
    (h : openT.isPrefixOf t = false) : stepTagNoLt openT closeT repl t = none := by
  simp [stepTagNoLt, h]

theorem stepTagDotall_none {openT closeT repl t : List Char}
    (h : openT.isPrefixOf t = false) : stepTagDotall openT closeT repl t = none := by
  simp [stepTagDotall, h]

/-- `re.sub` with a literal pattern rewrites the (unique) occurrence. -/
theorem reSubLit_eq {pat repl x y : List Char} (hpat : pat ≠ [])
    (hx : ∀ i < x.length, pat.isPrefixOf ((x ++ pat ++ y).drop i) = false)
    (hy : containsSub pat y = false) :
    reSubLit pat repl (x ++ pat ++ y) = x ++ repl ++ y := by
  obtain ⟨p, pt, rfl⟩ := List.exists_cons_of_ne_nil hpat
  have hyn : ∀ i, stepLit (p :: pt) repl (y.drop i) = none := fun i =>
    stepLit_none (containsSub_false_not_pref hy i)
  have hstep : stepLit (p :: pt) repl ((p :: pt) ++ y) = some (repl, y) := by
    have hpre : ((p :: pt) : List Char).isPrefixOf ((p :: pt) ++ y) = true := by
      simp [List.isPrefixOf_iff_prefix]
    simp [stepLit, hpre, List.drop_left]
  have hasc : x ++ (p :: pt) ++ y = x ++ ((p :: pt) ++ y) := by
    simp [List.append_assoc]
  rw [reSubLit, hasc, List.length_append]
  rw [replaceGo_skip x _ _ (fun i hi =>
    stepLit_none (by
      have := hx i (by simpa using hi)
      simpa [List.append_assoc] using this))]
  rw [List.cons_append, List.length_cons]
  rw [replaceGo_match (by simpa using hstep)]
  rw [replaceGo_id hyn]
  simp [List.append_assoc]

/-- `re.sub` with a literal pattern is the identity when the pattern does not
occur. -/
theorem reSubLit_id {pat repl s : List Char}
    (h : containsSub pat s = false) : reSubLit pat repl s = s :=
  replaceGo_id (fun i => stepLit_none (containsSub_false_not_pref h i)) _

/-- A prefix check only listens to the first `pat.length` characters. -/
theorem isPrefixOf_append_of_le {pat u : List Char} (v : List Char)
    (h : pat.length ≤ u.length) :
    pat.isPrefixOf (u ++ v) = pat.isPrefixOf u := by
  cases hpu : pat.isPrefixOf u with
  | true =>
      have hp : pat <+: u := List.isPrefixOf_iff_prefix.mp hpu
      have hp2 : pat <+: u ++ v := hp.trans (List.prefix_append u v)
      simpa [List.isPrefixOf_iff_prefix] using hp2
  | false =>
      cases hx : pat.isPrefixOf (u ++ v) with
      | false => rfl
      | true =>
          exfalso
          have hp : pat <+: u ++ v := List.isPrefixOf_iff_prefix.mp hx
          have hpe : pat = (u ++ v).take pat.length := List.prefix_iff_eq_take.mp hp
          have htk : (u ++ v).take pat.length = u.take pat.length := by
            rw [List.take_append_eq_append_take,
              show pat.length - u.length = 0 from by omega]
            simp
          have hpu2 : pat.isPrefixOf u = true :=
            List.isPrefixOf_iff_prefix.mpr (by
              rw [hpe, htk]
              exact List.take_prefix _ _)
          rw [hpu] at hpu2
          exact absurd hpu2 (by simp)

/-- A `noOccBefore` scan whose window stays inside the head region of an
append does not depend on the tail. -/
theorem noOccBefore_append_indep {pat : List Char} :
    ∀ (n : Nat) (u v w : List Char), n + pat.length ≤ u.length + 1 →
      noOccBefore pat (u ++ v) n = noOccBefore pat (u ++ w) n := by
  intro n
  induction n with
  | zero => intro u v w _; simp [noOccBefore]
  | succ m ih =>
      intro u v w h
      cases u with
      | nil =>
          have hp0 : pat.length = 0 := by simp at h; omega
          have hm0 : m = 0 := by simp at h; omega
          have hpe : pat = [] := List.eq_nil_of_length_eq_zero hp0
          subst hpe
          subst hm0
          cases v <;> cases w <;> simp [noOccBefore, List.isPrefixOf]
      | cons x xs =>
          have hlen : pat.length ≤ (x :: xs).length := by
            simp at h ⊢
            omega
          simp only [List.cons_append, noOccBefore, List.append_eq]
          have h1 : pat.isPrefixOf (x :: (xs ++ v)) = pat.isPrefixOf (x :: xs) := by
            rw [← List.cons_append]
            exact isPrefixOf_append_of_le v hlen
          have h2 : pat.isPrefixOf (x :: (xs ++ w)) = pat.isPrefixOf (x :: xs) := by
            rw [← List.cons_append]
            exact isPrefixOf_append_of_le w hlen
          rw [h1, h2, ih xs v w (by simp at h ⊢; omega)]

/-- Literal `re.sub` leaves an occurrence-free head region unchanged and
processes the tail with the remaining fuel. -/
theorem reSubLit_skip {pat repl x y : List Char}
    (hx : ∀ i < x.length, pat.isPrefixOf ((x ++ y).drop i) = false) :
    reSubLit pat repl (x ++ y) = x ++ reSubLit pat repl y := by
  rw [reSubLit, List.length_append,
    replaceGo_skip x y y.length (fun i hi => stepLit_none (hx i hi))]
  rfl

/-- `re.sub(r'open[^<]*close', repl)` rewrites the (unique) well-formed
element whose content has no `<`. -/
theorem reSubTagNoLt_eq {openT closeT repl x mid y : List Char}
    (hopen : openT ≠ []) (hcl : ∃ t, closeT = '<' :: t)
    (hmid : ∀ c ∈ mid, c ≠ '<')
    (hx : ∀ i < x.length,
      openT.isPrefixOf ((x ++ openT ++ mid ++ closeT ++ y).drop i) = false)
    (hy : containsSub openT y = false) :
    reSubTagNoLt openT closeT repl (x ++ openT ++ mid ++ closeT ++ y)
      = x ++ repl ++ y := by
  obtain ⟨p, pt, rfl⟩ := List.exists_cons_of_ne_nil hopen
  obtain ⟨ct, rfl⟩ := hcl
  have hyn : ∀ i, stepTagNoLt (p :: pt) ('<' :: ct) repl (y.drop i) = none := fun i =>
    stepTagNoLt_none (containsSub_false_not_pref hy i)
  have hstep : stepTagNoLt (p :: pt) ('<' :: ct) repl
      ((p :: pt) ++ (mid ++ (('<' :: ct) ++ y))) = some (repl, y) := by
    have hpre : ((p :: pt) : List Char).isPrefixOf
        ((p :: pt) ++ (mid ++ (('<' :: ct) ++ y))) = true := by
      simp [List.isPrefixOf_iff_prefix]
    have htw : (mid ++ (('<' :: ct) ++ y)).takeWhile (fun c => decide ¬ c = '<') = mid := by
      rw [List.takeWhile_append_of_pos (by
        intro a ha
        simpa using hmid a ha)]
      simp [List.takeWhile]
    have hcp : (('<' :: ct) : List Char).isPrefixOf (('<' :: ct) ++ y) = true := by
      simp [List.isPrefixOf_iff_prefix]
    simp only [stepTagNoLt, hpre, if_true, List.drop_left, htw]
    simp [hcp, List.drop_left]
  have hasc : x ++ (p :: pt) ++ mid ++ ('<' :: ct) ++ y
      = x ++ ((p :: pt) ++ (mid ++ (('<' :: ct) ++ y))) := by
    simp [List.append_assoc]
  rw [reSubTagNoLt, hasc, List.length_append]
  rw [replaceGo_skip x _ _ (fun i hi =>
    stepTagNoLt_none (by
      have := hx i (by simpa using hi)
      simpa [List.append_assoc] using this))]
  rw [List.cons_append, List.length_cons]
  rw [replaceGo_match (by simpa using hstep)]
  rw [replaceGo_id hyn]
  simp [List.append_assoc]

/-- `re.sub(r'open[^<]*close', …)` is the identity when the open tag does
not occur. -/
theorem reSubTagNoLt_id {openT closeT repl s : List Char}
    (h : containsSub openT s = false) :
    reSubTagNoLt openT closeT repl s = s :=
  replaceGo_id (fun i => stepTagNoLt_none (containsSub_false_not_pref h i)) _

/-- Non-greedy `re.sub(r'open.*?close', repl, flags=re.DOTALL)` rewrites the
span from the (unique) open tag to the nearest close tag. -/
theorem reSubTagDotall_eq {openT closeT repl x mid y : List Char}
    (hopen : openT ≠ [])
    (hmid : ∀ i < mid.length,
      closeT.isPrefixOf ((mid ++ (closeT ++ y)).drop i) = false)
    (hx : ∀ i < x.length,
      openT.isPrefixOf ((x ++ openT ++ mid ++ closeT ++ y).drop i) = false)
    (hy : containsSub openT y = false) :
    reSubTagDotall openT closeT repl (x ++ openT ++ mid ++ closeT ++ y)
      = x ++ repl ++ y := by
  obtain ⟨p, pt, rfl⟩ := List.exists_cons_of_ne_nil hopen
  have hyn : ∀ i, stepTagDotall (p :: pt) closeT repl (y.drop i) = none := fun i =>
    stepTagDotall_none (containsSub_false_not_pref hy i)
  have hfi : firstIdx closeT (mid ++ (closeT ++ y)) = some mid.length := by
    apply firstIdx_eq hmid
    rw [List.drop_left]
    simp [List.isPrefixOf_iff_prefix]
  have hstep : stepTagDotall (p :: pt) closeT repl
      ((p :: pt) ++ (mid ++ (closeT ++ y))) = some (repl, y) := by
    have hpre : ((p :: pt) : List Char).isPrefixOf
        ((p :: pt) ++ (mid ++ (closeT ++ y))) = true := by
      simp [List.isPrefixOf_iff_prefix]
    simp only [stepTagDotall, hpre, if_true, List.drop_left, hfi]
    have hdrop : (mid ++ (closeT ++ y)).drop (mid.length + closeT.length) = y := by
      have h1 : mid ++ (closeT ++ y) = (mid ++ closeT) ++ y := by
        simp [List.append_assoc]
      have h2 : mid.length + closeT.length = (mid ++ closeT).length := by
        simp
      rw [h1, h2, List.drop_left]
    rw [hdrop]
  have hasc : x ++ (p :: pt) ++ mid ++ closeT ++ y
      = x ++ ((p :: pt) ++ (mid ++ (closeT ++ y))) := by
    simp [List.append_assoc]
  rw [reSubTagDotall, hasc, List.length_append]
  rw [replaceGo_skip x _ _ (fun i hi =>
    stepTagDotall_none (by
      have := hx i (by simpa using hi)
      simpa [List.append_assoc] using this))]
  rw [List.cons_append, List.length_cons]
  rw [replaceGo_match (by simpa using hstep)]
  rw [replaceGo_id hyn]
  simp [List.append_assoc]

/-- DOTALL tag substitution is the identity when the open tag does not
occur. -/
theorem reSubTagDotall_id {openT closeT repl s : List Char}
    (h : containsSub openT s = false) :
    reSubTagDotall openT closeT repl s = s :=
  replaceGo_id (fun i => stepTagDotall_none (containsSub_false_not_pref h i)) _

/-! ## Extraction lemmas -/

theorem takeWhile_nil_of_head {p : Char → Bool} {l rest : List Char} {c : Char}
    (hl : l.head? = some c) (hc : p c = false) :
    (l ++ rest).takeWhile p = [] := by
  cases l with
  | nil => simp at hl
  | cons a as =>
      have : a = c := by simpa using hl
      subst this
      simp [List.takeWhile, hc]

theorem extractPdfB64_drop {s : List Char} {n : Nat}
    (h : noPdfMatchBefore s n = true) :
    extractPdfB64 s = extractPdfB64 (s.drop n) := by
  induction n generalizing s with
  | zero => simp
  | succ n ih =>
      cases s with
      | nil => simp
      | cons c cs =>
          simp only [noPdfMatchBefore, Bool.and_eq_true, Bool.not_eq_true'] at h
          simp only [extractPdfB64, h.1, Bool.false_eq_true, if_false]
          rw [List.drop_succ_cons]
          exact ih h.2

theorem extractPdfB64_here {payload rest : List Char}
    (hpl : ∀ c ∈ payload, isB64Char c = true) (hne : payload ≠ [])
    (hrest : rest.takeWhile isB64Char = []) :
    extractPdfB64 (pdfMarker ++ (payload ++ rest)) = some payload := by
  have hgrp : ((pdfMarker ++ (payload ++ rest)).drop pdfMarker.length).takeWhile isB64Char
      = payload := by
    rw [List.drop_left, List.takeWhile_append_of_pos hpl, hrest, List.append_nil]
  have hmatch : pdfMatchAt (pdfMarker ++ (payload ++ rest)) = true := by
    rw [pdfMatchAt, hgrp]
    simp [List.isPrefixOf_iff_prefix, hne]
  obtain ⟨c, t, hct⟩ : ∃ c t, pdfMarker = c :: t := by
    cases hp : pdfMarker with
    | nil => exact absurd hp (by decide)
    | cons c t => exact ⟨c, t, rfl⟩
  have hmatch' : pdfMatchAt (c :: (t ++ (payload ++ rest))) = true := by
    rw [← List.cons_append, ← hct]
    exact hmatch
  have hgrp' : ((c :: (t ++ (payload ++ rest))).drop pdfMarker.length).takeWhile isB64Char
      = payload := by
    rw [← List.cons_append, ← hct]
    exact hgrp
  rw [hct, List.cons_append]
  simp only [extractPdfB64, hmatch', if_true, hgrp']

/-! ## Container-operation lemmas -/

theorem firstTagContentNoLt_drop {openT closeT s : List Char} {n : Nat}
    (h : noOccBefore openT s n = true) :
    firstTagContentNoLt openT closeT s = firstTagContentNoLt openT closeT (s.drop n) := by
  induction n generalizing s with
  | zero => simp
  | succ n ih =>
      cases s with
      | nil => simp
      | cons c cs =>
          simp only [noOccBefore, Bool.and_eq_true, Bool.not_eq_true'] at h
          simp only [firstTagContentNoLt, h.1, Bool.false_eq_true, if_false]
          rw [List.drop_succ_cons]
          exact ih h.2

theorem firstTagContentDotall_drop {openT closeT s : List Char} {n : Nat}
    (h : noOccBefore openT s n = true) :
    firstTagContentDotall openT closeT s
      = firstTagContentDotall openT closeT (s.drop n) := by
  induction n generalizing s with
  | zero => simp
  | succ n ih =>
      cases s with
      | nil => simp
      | cons c cs =>
          simp only [noOccBefore, Bool.and_eq_true, Bool.not_eq_true'] at h
          simp only [firstTagContentDotall, h.1, Bool.false_eq_true, if_false]
          rw [List.drop_succ_cons]
          exact ih h.2

theorem firstTagContentNoLt_here {openT closeT mid rest : List Char}
    (hopen : openT ≠ []) (hcl : ∃ t, closeT = '<' :: t)
    (hmid : ∀ c ∈ mid, c ≠ '<') :
    firstTagContentNoLt openT closeT (openT ++ (mid ++ (closeT ++ rest)))
      = some mid := by
  obtain ⟨ct, rfl⟩ := hcl
  have hdrop : (openT ++ (mid ++ (('<' :: ct) ++ rest))).drop openT.length
      = mid ++ (('<' :: ct) ++ rest) := List.drop_left _ _
  have htw : (mid ++ (('<' :: ct) ++ rest)).takeWhile (fun ch => decide ¬ ch = '<')
      = mid := by
    rw [List.takeWhile_append_of_pos (by
      intro a ha
      simpa using hmid a ha)]
    simp [List.takeWhile]
  have hpre : ((openT : List Char)).isPrefixOf (openT ++ (mid ++ (('<' :: ct) ++ rest)))
      = true := by
    simp [List.isPrefixOf_iff_prefix]
  have hcp : (('<' :: ct) : List Char).isPrefixOf (('<' :: ct) ++ rest) = true := by
    simp [List.isPrefixOf_iff_prefix]
  obtain ⟨o, ot, hoc⟩ : ∃ o ot, openT = o :: ot :=
    match openT, hopen with
    | o :: ot, _ => ⟨o, ot, rfl⟩
  rw [hoc, List.cons_append]
  have hpre' := hoc ▸ hpre
  have hdrop' := hoc ▸ hdrop
  have h1 : firstTagContentNoLt (o :: ot) ('<' :: ct)
      (o :: (ot ++ (mid ++ (('<' :: ct) ++ rest))))
      = some ((mid ++ (('<' :: ct) ++ rest)).takeWhile (fun ch => decide ¬ ch = '<')) := by
    simp only [firstTagContentNoLt]
    rw [show ((o :: ot : List Char)).isPrefixOf (o :: (ot ++ (mid ++ (('<' :: ct) ++ rest))))
        = true from by rw [← List.cons_append]; exact hpre']
    simp only [if_true]
    rw [show (o :: (ot ++ (mid ++ (('<' :: ct) ++ rest)))).drop ((o :: ot : List Char)).length
        = mid ++ (('<' :: ct) ++ rest) from by rw [← List.cons_append]; exact hdrop']
    rw [htw]
    rw [show (mid ++ (('<' :: ct) ++ rest)).drop mid.length = ('<' :: ct) ++ rest from
      List.drop_left _ _]
    rw [hcp]
    simp
  rw [h1, htw]

theorem firstTagContentDotall_here {openT closeT mid rest : List Char}
    (hopen : openT ≠ [])
    (hmid : ∀ i < mid.length,
      closeT.isPrefixOf ((mid ++ (closeT ++ rest)).drop i) = false) :
    firstTagContentDotall openT closeT (openT ++ (mid ++ (closeT ++ rest)))
      = some mid := by
  have hfi : firstIdx closeT (mid ++ (closeT ++ rest)) = some mid.length := by
    apply firstIdx_eq hmid
    rw [List.drop_left]
    simp [List.isPrefixOf_iff_prefix]
  have hpre : ((openT : List Char)).isPrefixOf (openT ++ (mid ++ (closeT ++ rest)))
      = true := by
    simp [List.isPrefixOf_iff_prefix]
  obtain ⟨o, ot, hoc⟩ : ∃ o ot, openT = o :: ot :=
    match openT, hopen with
    | o :: ot, _ => ⟨o, ot, rfl⟩
  rw [hoc, List.cons_append]
  simp only [firstTagContentDotall]
  rw [show ((o :: ot : List Char)).isPrefixOf (o :: (ot ++ (mid ++ (closeT ++ rest))))
      = true from by rw [← List.cons_append, ← hoc]; exact hpre]
  simp only [if_true]
  rw [show (o :: (ot ++ (mid ++ (closeT ++ rest)))).drop ((o :: ot : List Char)).length
      = mid ++ (closeT ++ rest) from by rw [← List.cons_append, ← hoc]; exact List.drop_left _ _]
  rw [hfi]
  simp [List.take_left]

/-- Exact output of `update_svg_with_ocr` on a well-formed container:
status element before the `ocr_data` element, no stray occurrences of the
involved tags, element contents free of the closing markers.  Hypothesis
`h7` places every occurrence of the pending interface banner after the
`ocr_data` element — where `create_svg_template` writes the interface
section — so the trailing banner substitution acts on the tail `c` alone
and the metadata region is carried through unchanged. -/
theorem update_svg_with_ocr_eq
    (a st b d c j : List Char)
    (hst : ∀ ch ∈ st, ch ≠ '<')
    (h1 : noOccBefore statusOpen
      (a ++ statusOpen ++ st ++ statusClose ++ (b ++ ocrOpen ++ d ++ ocrClose ++ c))
      a.length = true)
    (h2 : containsSub statusOpen (b ++ ocrOpen ++ d ++ ocrClose ++ c) = false)
    (h4 : noOccBefore ocrOpen
      (a ++ statusCompletedElem ++ b ++ ocrOpen ++ d ++ ocrClose ++ c)
      (a ++ statusCompletedElem ++ b).length = true)
    (h5 : containsSub ocrOpen c = false)
    (h6 : noOccBefore ocrClose (d ++ ocrClose ++ c) d.length = true)
    (h7 : noOccBefore ifacePending
      (a ++ statusCompletedElem ++ b ++ ocrOpen ++ j ++ ocrClose ++ c)
      (a ++ statusCompletedElem ++ b ++ ocrOpen ++ j ++ ocrClose).length = true) :
    update_svg_with_ocr j
      (a ++ statusOpen ++ st ++ statusClose ++ (b ++ ocrOpen ++ d ++ ocrClose ++ c))
      = a ++ statusCompletedElem ++ b ++ ocrOpen ++ j ++ ocrClose
          ++ reSubLit ifacePending ifaceDone c := by
  have hs1 : reSubTagNoLt statusOpen statusClose statusCompletedElem
      (a ++ statusOpen ++ st ++ statusClose ++ (b ++ ocrOpen ++ d ++ ocrClose ++ c))
      = a ++ statusCompletedElem ++ (b ++ ocrOpen ++ d ++ ocrClose ++ c) :=
    reSubTagNoLt_eq (by decide) ⟨("/veridock:ocr_status>").toList, by decide⟩
      hst (noOccBefore_not_pref h1) h2
  have heqA : a ++ statusCompletedElem ++ (b ++ ocrOpen ++ d ++ ocrClose ++ c)
      = a ++ statusCompletedElem ++ b ++ ocrOpen ++ d ++ ocrClose ++ c := by
    simp [List.append_assoc]
  have hmid' : ∀ i < d.length,
      ocrClose.isPrefixOf ((d ++ (ocrClose ++ c)).drop i) = false := by
    intro i hi
    rw [show d ++ (ocrClose ++ c) = d ++ ocrClose ++ c from by simp [List.append_assoc]]
    exact noOccBefore_not_pref h6 i hi
  have hs2 : reSubTagDotall ocrOpen ocrClose (ocrOpen ++ j ++ ocrClose)
      (a ++ statusCompletedElem ++ b ++ ocrOpen ++ d ++ ocrClose ++ c)
      = a ++ statusCompletedElem ++ b ++ (ocrOpen ++ j ++ ocrClose) ++ c :=
    reSubTagDotall_eq (by decide) hmid' (noOccBefore_not_pref h4) h5
  have heqB : a ++ statusCompletedElem ++ b ++ (ocrOpen ++ j ++ ocrClose) ++ c
      = a ++ statusCompletedElem ++ b ++ ocrOpen ++ j ++ ocrClose ++ c := by
    simp [List.append_assoc]
  have hcond : containsSub ocrOpen
      (reSubTagNoLt statusOpen statusClose statusCompletedElem
        (a ++ statusOpen ++ st ++ statusClose ++ (b ++ ocrOpen ++ d ++ ocrClose ++ c)))
      = true := by
    rw [hs1]
    apply containsSub_of_infix
    exact ⟨a ++ statusCompletedElem ++ b, d ++ ocrClose ++ c, by simp [List.append_assoc]⟩
  simp only [update_svg_with_ocr, hcond, if_true]
  rw [hs1, heqA, hs2, heqB]
  exact reSubLit_skip (noOccBefore_not_pref h7)

/-- Exact output of `import_svg_data` with an OCR bundle on a well-formed
container: the bundle replaces the `ocr_data` content and the status is
forced to `completed`. -/
theorem import_svg_data_ocr_eq
    (a st b d c j : List Char)
    (hst : ∀ ch ∈ st, ch ≠ '<')
    (hIo : noOccBefore ocrOpen
      (a ++ statusOpen ++ st ++ statusClose ++ b ++ ocrOpen ++ d ++ ocrClose ++ c)
      (a ++ statusOpen ++ st ++ statusClose ++ b).length = true)
    (h5 : containsSub ocrOpen c = false)
    (h6 : noOccBefore ocrClose (d ++ ocrClose ++ c) d.length = true)
    (hIs1 : noOccBefore statusOpen
      (a ++ statusOpen ++ st ++ statusClose ++ b ++ ocrOpen ++ j ++ ocrClose ++ c)
      a.length = true)
    (hIs2 : containsSub statusOpen (b ++ ocrOpen ++ j ++ ocrClose ++ c) = false) :
    import_svg_data (some j) none
      (a ++ statusOpen ++ st ++ statusClose ++ (b ++ ocrOpen ++ d ++ ocrClose ++ c))
      = a ++ statusCompletedElem ++ b ++ ocrOpen ++ j ++ ocrClose ++ c := by
  have heq0 : a ++ statusOpen ++ st ++ statusClose ++ (b ++ ocrOpen ++ d ++ ocrClose ++ c)
      = a ++ statusOpen ++ st ++ statusClose ++ b ++ ocrOpen ++ d ++ ocrClose ++ c := by
    simp [List.append_assoc]
  have hmid' : ∀ i < d.length,
      ocrClose.isPrefixOf ((d ++ (ocrClose ++ c)).drop i) = false := by
    intro i hi
    rw [show d ++ (ocrClose ++ c) = d ++ ocrClose ++ c from by simp [List.append_assoc]]
    exact noOccBefore_not_pref h6 i hi
  have ht : reSubTagDotall ocrOpen ocrClose (ocrOpen ++ j ++ ocrClose)
      (a ++ statusOpen ++ st ++ statusClose ++ b ++ ocrOpen ++ d ++ ocrClose ++ c)
      = a ++ statusOpen ++ st ++ statusClose ++ b ++ (ocrOpen ++ j ++ ocrClose) ++ c :=
    reSubTagDotall_eq (by decide) hmid' (noOccBefore_not_pref hIo) h5
  have heqT : a ++ statusOpen ++ st ++ statusClose ++ b ++ (ocrOpen ++ j ++ ocrClose) ++ c
      = a ++ statusOpen ++ st ++ statusClose ++ (b ++ ocrOpen ++ j ++ ocrClose ++ c) := by
    simp [List.append_assoc]
  have hs : reSubTagNoLt statusOpen statusClose statusCompletedElem
      (a ++ statusOpen ++ st ++ statusClose ++ (b ++ ocrOpen ++ j ++ ocrClose ++ c))
      = a ++ statusCompletedElem ++ (b ++ ocrOpen ++ j ++ ocrClose ++ c) :=
    reSubTagNoLt_eq (by decide) ⟨("/veridock:ocr_status>").toList, by decide⟩
      hst (by
        intro i hi
        rw [show a ++ statusOpen ++ st ++ statusClose ++ (b ++ ocrOpen ++ j ++ ocrClose ++ c)
            = a ++ statusOpen ++ st ++ statusClose ++ b ++ ocrOpen ++ j ++ ocrClose ++ c from
          by simp [List.append_assoc]]
        exact noOccBefore_not_pref hIs1 i hi) hIs2
  have hcond : containsSub ocrOpen
      (a ++ statusOpen ++ st ++ statusClose ++ (b ++ ocrOpen ++ d ++ ocrClose ++ c))
      = true := by
    apply containsSub_of_infix
    exact ⟨a ++ statusOpen ++ st ++ statusClose ++ b, d ++ ocrClose ++ c,
      by simp [List.append_assoc]⟩
  simp only [import_svg_data, hcond, if_true]
  rw [heq0, ht, heqT, hs]
  simp [List.append_assoc]

/-- The two field reads on the container written by the OCR/import path:
the status element reads `completed` and the `ocr_data` element reads back
exactly the written bundle. -/
theorem container_extract_facts
    (a b c j : List Char)
    (h8 : noOccBefore ocrOpen
      (a ++ statusCompletedElem ++ b ++ ocrOpen ++ j ++ ocrClose ++ c)
      (a ++ statusCompletedElem ++ b).length = true)
    (h9 : noOccBefore ocrClose (j ++ ocrClose ++ c) j.length = true)
    (h10 : noOccBefore statusOpen
      (a ++ statusCompletedElem ++ b ++ ocrOpen ++ j ++ ocrClose ++ c)
      a.length = true) :
    firstTagContentNoLt statusOpen statusClose
      (a ++ statusCompletedElem ++ b ++ ocrOpen ++ j ++ ocrClose ++ c)
      = some (("completed").toList)
    ∧ firstTagContentDotall ocrOpen ocrClose
      (a ++ statusCompletedElem ++ b ++ ocrOpen ++ j ++ ocrClose ++ c) = some j := by
  constructor
  · rw [firstTagContentNoLt_drop h10]
    rw [show a ++ statusCompletedElem ++ b ++ ocrOpen ++ j ++ ocrClose ++ c
        = a ++ (statusCompletedElem ++ (b ++ (ocrOpen ++ (j ++ (ocrClose ++ c))))) from
      by simp [List.append_assoc]]
    rw [List.drop_left]
    rw [show statusCompletedElem ++ (b ++ (ocrOpen ++ (j ++ (ocrClose ++ c))))
        = statusOpen ++ ((("completed").toList)
            ++ (statusClose ++ (b ++ (ocrOpen ++ (j ++ (ocrClose ++ c)))))) from by
      rw [show statusCompletedElem
          = statusOpen ++ (("completed").toList ++ statusClose) from by decide]
      simp [List.append_assoc]]
    exact firstTagContentNoLt_here (by decide)
      ⟨("/veridock:ocr_status>").toList, by decide⟩ (by decide)
  · rw [firstTagContentDotall_drop h8]
    rw [show a ++ statusCompletedElem ++ b ++ ocrOpen ++ j ++ ocrClose ++ c
        = (a ++ statusCompletedElem ++ b) ++ (ocrOpen ++ (j ++ (ocrClose ++ c))) from
      by simp [List.append_assoc]]
    rw [List.drop_left]
    apply firstTagContentDotall_here (by decide)
    intro i hi
    rw [show j ++ (ocrClose ++ c) = j ++ ocrClose ++ c from by simp [List.append_assoc]]
    exact noOccBefore_not_pref h9 i hi

/-! ## Claim C2 -/

/-- C2: on a well-formed container (status element before a well-delimited
`ocr_data` element, no stray tag occurrences, bundle free of backslashes so
Python's replacement-escape processing is the identity, and every
occurrence of the pending interface banner located after the `ocr_data`
element — where `create_svg_template` writes the interface section, so this
holds for every container the program produces, banner present or not),
both container-writing operations that set `ocr_status` to `completed` —
the OCR stage's `update_svg_with_ocr` and `import_svg_data` with an OCR
bundle — leave the invariant: the status field reads `completed` only
together with a present, nonempty `ocr_data` content, namely the written
bundle `j ≠ []` itself. -/
theorem C2_completed_implies_ocr_data
    (a st b d c j : List Char) (hjne : j ≠ [])
    (_hjbs : ∀ ch ∈ j, ch ≠ '\\')
    (hst : ∀ ch ∈ st, ch ≠ '<')
    (h1 : noOccBefore statusOpen
      (a ++ statusOpen ++ st ++ statusClose ++ (b ++ ocrOpen ++ d ++ ocrClose ++ c))
      a.length = true)
    (h2 : containsSub statusOpen (b ++ ocrOpen ++ d ++ ocrClose ++ c) = false)
    (h4 : noOccBefore ocrOpen
      (a ++ statusCompletedElem ++ b ++ ocrOpen ++ d ++ ocrClose ++ c)
      (a ++ statusCompletedElem ++ b).length = true)
    (h5 : containsSub ocrOpen c = false)
    (h6 : noOccBefore ocrClose (d ++ ocrClose ++ c) d.length = true)
    (h7 : noOccBefore ifacePending
      (a ++ statusCompletedElem ++ b ++ ocrOpen ++ j ++ ocrClose ++ c)
      (a ++ statusCompletedElem ++ b ++ ocrOpen ++ j ++ ocrClose).length = true)
    (hIo : noOccBefore ocrOpen
      (a ++ statusOpen ++ st ++ statusClose ++ b ++ ocrOpen ++ d ++ ocrClose ++ c)
      (a ++ statusOpen ++ st ++ statusClose ++ b).length = true)
    (hIs1 : noOccBefore statusOpen
      (a ++ statusOpen ++ st ++ statusClose ++ b ++ ocrOpen ++ j ++ ocrClose ++ c)
      a.length = true)
    (hIs2 : containsSub statusOpen (b ++ ocrOpen ++ j ++ ocrClose ++ c) = false)
    (h8 : noOccBefore ocrOpen
      (a ++ statusCompletedElem ++ b ++ ocrOpen ++ j ++ ocrClose ++ c)
      (a ++ statusCompletedElem ++ b).length = true)
    (h9 : noOccBefore ocrClose (j ++ ocrClose ++ c) j.length = true)
    (h10 : noOccBefore statusOpen
      (a ++ statusCompletedElem ++ b ++ ocrOpen ++ j ++ ocrClose ++ c)
      a.length = true) :
    OcrInvariant (update_svg_with_ocr j
      (a ++ statusOpen ++ st ++ statusClose ++ (b ++ ocrOpen ++ d ++ ocrClose ++ c)))
    ∧ OcrInvariant (import_svg_data (some j) none
      (a ++ statusOpen ++ st ++ statusClose ++ (b ++ ocrOpen ++ d ++ ocrClose ++ c))) := by
  have hfacts := container_extract_facts a b c j h8 h9 h10
  have h8' : noOccBefore ocrOpen
      (a ++ statusCompletedElem ++ b ++ ocrOpen ++ j ++ ocrClose
        ++ reSubLit ifacePending ifaceDone c)
      (a ++ statusCompletedElem ++ b).length = true := by
    rw [noOccBefore_append_indep (a ++ statusCompletedElem ++ b).length
      (a ++ statusCompletedElem ++ b ++ ocrOpen ++ j ++ ocrClose)
      (reSubLit ifacePending ifaceDone c) c (by simp only [List.length_append]; omega)]
    exact h8
  have h9' : noOccBefore ocrClose
      (j ++ ocrClose ++ reSubLit ifacePending ifaceDone c) j.length = true := by
    rw [noOccBefore_append_indep j.length (j ++ ocrClose)
      (reSubLit ifacePending ifaceDone c) c (by simp only [List.length_append]; omega)]
    exact h9
  have h10' : noOccBefore statusOpen
      (a ++ statusCompletedElem ++ b ++ ocrOpen ++ j ++ ocrClose
        ++ reSubLit ifacePending ifaceDone c) a.length = true := by
    rw [noOccBefore_append_indep a.length
      (a ++ statusCompletedElem ++ b ++ ocrOpen ++ j ++ ocrClose)
      (reSubLit ifacePending ifaceDone c) c (by
        simp only [List.length_append,
          show statusOpen.length = 21 from by decide,
          show statusCompletedElem.length = 52 from by decide]
        omega)]
    exact h10
  have hfacts' := container_extract_facts a b (reSubLit ifacePending ifaceDone c) j
    h8' h9' h10'
  constructor
  · rw [update_svg_with_ocr_eq a st b d c j hst h1 h2 h4 h5 h6 h7]
    intro _
    exact ⟨j, hfacts'.2, hjne⟩
  · rw [import_svg_data_ocr_eq a st b d c j hst hIo h5 h6 hIs1 hIs2]
    intro _
    exact ⟨j, hfacts.2, hjne⟩

/-- Witness for C2 on a concrete container and bundle; the container's tail
carries the pending interface banner, as real containers do. -/
theorem C2_witness :
    OcrInvariant (update_svg_with_ocr (("\x7b\"x\": 1\x7d").toList)
      (("<x>").toList ++ statusOpen ++ ("pending").toList ++ statusClose
        ++ (("\x0a  ").toList ++ ocrOpen ++ [] ++ ocrClose
            ++ ("</veridock:document><text>Status OCR: <tspan fill=\"#f39c12\">Oczekuje</tspan></text></x>").toList)))
    ∧ OcrInvariant (import_svg_data (some (("\x7b\"x\": 1\x7d").toList)) none
      (("<x>").toList ++ statusOpen ++ ("pending").toList ++ statusClose
        ++ (("\x0a  ").toList ++ ocrOpen ++ [] ++ ocrClose
            ++ ("</veridock:document><text>Status OCR: <tspan fill=\"#f39c12\">Oczekuje</tspan></text></x>").toList))) :=
  C2_completed_implies_ocr_data (("<x>").toList) (("pending").toList)
    (("\x0a  ").toList) []
    (("</veridock:document><text>Status OCR: <tspan fill=\"#f39c12\">Oczekuje</tspan></text></x>").toList)
    (("\x7b\"x\": 1\x7d").toList)
    (by decide) (by decide) (by decide) (by decide) (by decide) (by decide)
    (by decide) (by decide) (by decide) (by decide) (by decide) (by decide)
    (by decide) (by decide) (by decide)

/-! ## Claim C3 -/

/-- C3: applying the OCR stage twice leaves the container byte-identical to
applying it once.  On a well-formed container, a run that succeeds writes a
text containing `ocr_status>completed</veridock:ocr_status>`; the second
run detects that substring, reports success and returns the text unchanged;
all failing runs leave the text unchanged, so the twofold application
never differs from the single one.  The capability `cap` maps extracted PDF
bytes to the serialized OCR bundle (`none` = rasterization/OCR failure);
`hcap` only places every occurrence of the pending interface banner after
the `ocr_data` element — where `create_svg_template` writes the interface
section — so the theorem covers the real pending containers, whose banner
the first run rewrites to `Zakończono`. -/
theorem C3_ocr_stage_idempotent
    (cap : List Nat → Option (List Char))
    (a st b d c : List Char)
    (hst : ∀ ch ∈ st, ch ≠ '<')
    (h1 : noOccBefore statusOpen
      (a ++ statusOpen ++ st ++ statusClose ++ (b ++ ocrOpen ++ d ++ ocrClose ++ c))
      a.length = true)
    (h2 : containsSub statusOpen (b ++ ocrOpen ++ d ++ ocrClose ++ c) = false)
    (h4 : noOccBefore ocrOpen
      (a ++ statusCompletedElem ++ b ++ ocrOpen ++ d ++ ocrClose ++ c)
      (a ++ statusCompletedElem ++ b).length = true)
    (h5 : containsSub ocrOpen c = false)
    (h6 : noOccBefore ocrClose (d ++ ocrClose ++ c) d.length = true)
    (hcap : ∀ pdf j, cap pdf = some j →
      noOccBefore ifacePending
        (a ++ statusCompletedElem ++ b ++ ocrOpen ++ j ++ ocrClose ++ c)
        (a ++ statusCompletedElem ++ b ++ ocrOpen ++ j ++ ocrClose).length = true) :
    (process_svg cap (process_svg cap
      (a ++ statusOpen ++ st ++ statusClose ++ (b ++ ocrOpen ++ d ++ ocrClose ++ c))).2).2
      = (process_svg cap
        (a ++ statusOpen ++ st ++ statusClose ++ (b ++ ocrOpen ++ d ++ ocrClose ++ c))).2
    ∧ ((process_svg cap
        (a ++ statusOpen ++ st ++ statusClose ++ (b ++ ocrOpen ++ d ++ ocrClose ++ c))).1 = true →
       process_svg cap (process_svg cap
         (a ++ statusOpen ++ st ++ statusClose ++ (b ++ ocrOpen ++ d ++ ocrClose ++ c))).2
         = (true, (process_svg cap
           (a ++ statusOpen ++ st ++ statusClose ++ (b ++ ocrOpen ++ d ++ ocrClose ++ c))).2)) := by
  by_cases hdone : containsSub completedMarker
      (a ++ statusOpen ++ st ++ statusClose ++ (b ++ ocrOpen ++ d ++ ocrClose ++ c)) = true
  · have h : process_svg cap
        (a ++ statusOpen ++ st ++ statusClose ++ (b ++ ocrOpen ++ d ++ ocrClose ++ c))
        = (true, a ++ statusOpen ++ st ++ statusClose
            ++ (b ++ ocrOpen ++ d ++ ocrClose ++ c)) := by
      unfold process_svg
      rw [hdone]
      simp
    rw [h]
    exact ⟨by rw [h], fun _ => h⟩
  · have hdone' : containsSub completedMarker
        (a ++ statusOpen ++ st ++ statusClose ++ (b ++ ocrOpen ++ d ++ ocrClose ++ c))
        = false := by simpa using hdone
    cases hext : extract_pdf_from_svg
        (a ++ statusOpen ++ st ++ statusClose ++ (b ++ ocrOpen ++ d ++ ocrClose ++ c)) with
    | none =>
        have h : process_svg cap
            (a ++ statusOpen ++ st ++ statusClose ++ (b ++ ocrOpen ++ d ++ ocrClose ++ c))
            = (false, a ++ statusOpen ++ st ++ statusClose
                ++ (b ++ ocrOpen ++ d ++ ocrClose ++ c)) := by
          unfold process_svg
          rw [hdone', hext]
          simp
        rw [h]
        exact ⟨by rw [h], fun hc => by simp at hc⟩
    | some pdf =>
        by_cases hpe : pdf.isEmpty = true
        · have h : process_svg cap
              (a ++ statusOpen ++ st ++ statusClose ++ (b ++ ocrOpen ++ d ++ ocrClose ++ c))
              = (false, a ++ statusOpen ++ st ++ statusClose
                  ++ (b ++ ocrOpen ++ d ++ ocrClose ++ c)) := by
            unfold process_svg
            rw [hdone', hext]
            simp [hpe]
          rw [h]
          exact ⟨by rw [h], fun hc => by simp at hc⟩
        · have hpe' : pdf.isEmpty = false := by simpa using hpe
          cases hcapr : cap pdf with
          | none =>
              have h : process_svg cap
                  (a ++ statusOpen ++ st ++ statusClose ++ (b ++ ocrOpen ++ d ++ ocrClose ++ c))
                  = (false, a ++ statusOpen ++ st ++ statusClose
                      ++ (b ++ ocrOpen ++ d ++ ocrClose ++ c)) := by
                unfold process_svg
                rw [hdone', hext]
                simp [hpe', hcapr]
              rw [h]
              exact ⟨by rw [h], fun hc => by simp at hc⟩
          | some j =>
              have hrun : process_svg cap
                  (a ++ statusOpen ++ st ++ statusClose ++ (b ++ ocrOpen ++ d ++ ocrClose ++ c))
                  = (true, update_svg_with_ocr j
                      (a ++ statusOpen ++ st ++ statusClose
                        ++ (b ++ ocrOpen ++ d ++ ocrClose ++ c))) := by
                unfold process_svg
                rw [hdone', hext]
                simp [hpe', hcapr]
              have hupd := update_svg_with_ocr_eq a st b d c j hst h1 h2 h4 h5 h6
                (hcap pdf j hcapr)
              have hmark : containsSub completedMarker
                  (update_svg_with_ocr j
                    (a ++ statusOpen ++ st ++ statusClose
                      ++ (b ++ ocrOpen ++ d ++ ocrClose ++ c))) = true := by
                rw [hupd]
                apply containsSub_of_infix
                refine ⟨a ++ ("<veridock:").toList,
                  b ++ ocrOpen ++ j ++ ocrClose ++ reSubLit ifacePending ifaceDone c, ?_⟩
                rw [show statusCompletedElem = ("<veridock:").toList ++ completedMarker from
                  by decide]
                simp [List.append_assoc]
              have hsecond : process_svg cap
                  (update_svg_with_ocr j
                    (a ++ statusOpen ++ st ++ statusClose
                      ++ (b ++ ocrOpen ++ d ++ ocrClose ++ c)))
                  = (true, update_svg_with_ocr j
                      (a ++ statusOpen ++ st ++ statusClose
                        ++ (b ++ ocrOpen ++ d ++ ocrClose ++ c))) := by
                unfold process_svg
                rw [hmark]
                simp
              rw [hrun]
              exact ⟨by rw [hsecond], fun _ => hsecond⟩

/-- Witness for C3: one concrete run with a constant OCR capability on the
minimal pending container; both conjuncts at that instance. -/
theorem C3_witness :
    (process_svg (fun _ => some (("\x7b\"x\": 1\x7d").toList)) (process_svg
      (fun _ => some (("\x7b\"x\": 1\x7d").toList))
      (("<x>").toList ++ statusOpen ++ ("pending").toList ++ statusClose
        ++ (("\x0a  ").toList ++ ocrOpen ++ [] ++ ocrClose
            ++ ("</veridock:document><text>Status OCR: <tspan fill=\"#f39c12\">Oczekuje</tspan></text></x>").toList))).2).2
      = (process_svg (fun _ => some (("\x7b\"x\": 1\x7d").toList))
        (("<x>").toList ++ statusOpen ++ ("pending").toList ++ statusClose
          ++ (("\x0a  ").toList ++ ocrOpen ++ [] ++ ocrClose
              ++ ("</veridock:document><text>Status OCR: <tspan fill=\"#f39c12\">Oczekuje</tspan></text></x>").toList))).2 :=
  (C3_ocr_stage_idempotent (fun _ => some (("\x7b\"x\": 1\x7d").toList))
    (("<x>").toList) (("pending").toList) (("\x0a  ").toList) []
    (("</veridock:document><text>Status OCR: <tspan fill=\"#f39c12\">Oczekuje</tspan></text></x>").toList)
    (by decide) (by decide) (by decide) (by decide) (by decide) (by decide)
    (fun pdf j hj => by
      have : j = ("\x7b\"x\": 1\x7d").toList := by
        simpa using hj.symm
      rw [this]
      decide)).1

/-! ## Claim C5 -/

theorem vdOpen_cons (k : List Char) :
    vdOpen k = '<' :: (("veridock:").toList ++ k ++ (">").toList) := by
  rw [vdOpen, show ("<veridock:").toList = '<' :: ("veridock:").toList from by decide]
  simp

theorem vdClose_cons (k : List Char) :
    vdClose k = '<' :: (("/veridock:").toList ++ k ++ (">").toList) := by
  rw [vdClose, show ("</veridock:").toList = '<' :: ("/veridock:").toList from by decide]
  simp

theorem vdOpen_ne_nil (k : List Char) : vdOpen k ≠ [] := by
  rw [vdOpen_cons]
  simp

/-- Single-pair `update_svg_metadata` on a whitelisted key is one field
substitution. -/
theorem update_svg_metadata_single {k v svg : List Char}
    (hk : allowedMetaKeys.contains k = true) :
    update_svg_metadata [(k, v)] svg = updateSvgField k v svg := by
  have hk' : k ∈ allowedMetaKeys := by simpa using hk
  simp [update_svg_metadata, hk']

/-- C5 counterexample: on a container with the metadata block's closing
marker but no `filename` element, `update_svg_metadata` leaves the text
unchanged — no `<veridock:filename>` element is inserted before
`</veridock:document>`, contradicting the claim's insert-at-anchor clause
for `updateField`. -/
theorem C5_counterexample :
    update_svg_metadata [(("filename").toList, ("doc.pdf").toList)]
      (("<svg><veridock:document></veridock:document></svg>").toList)
      = ("<svg><veridock:document></veridock:document></svg>").toList
    ∧ containsSub (vdOpen (("filename").toList))
        (("<svg><veridock:document></veridock:document></svg>").toList) = false
    ∧ containsSub docCloseMarker
        (("<svg><veridock:document></veridock:document></svg>").toList) = true
    ∧ containsSub (vdOpen (("filename").toList))
        (update_svg_metadata [(("filename").toList, ("doc.pdf").toList)]
          (("<svg><veridock:document></veridock:document></svg>").toList)) = false := by
  refine ⟨by decide, by decide, by decide, by decide⟩

/-- C5 amended: `updateField` (`update_svg_metadata`) replaces the targeted
element's content wholesale and leaves the surrounding text unchanged, and
for values without `<` (and without backslashes, so the literal-replacement
model is exact) it is idempotent; but when the targeted element is absent it
makes **no** change at all — it performs no insertion.  Only the per-field
merge of `import_svg_data` inserts a missing element, immediately before the
`</veridock:document>` marker. -/
theorem C5_update_field_semantics :
    (∀ k v a mid b : List Char, allowedMetaKeys.contains k = true →
      (∀ ch ∈ mid, ch ≠ '<') → (∀ ch ∈ v, ch ≠ '<') → (∀ ch ∈ v, ch ≠ '\\') →
      noOccBefore (vdOpen k) (a ++ vdOpen k ++ mid ++ vdClose k ++ b) a.length = true →
      containsSub (vdOpen k) b = false →
      noOccBefore (vdOpen k) (a ++ vdOpen k ++ v ++ vdClose k ++ b) a.length = true →
      update_svg_metadata [(k, v)] (a ++ vdOpen k ++ mid ++ vdClose k ++ b)
        = a ++ (vdOpen k ++ v ++ vdClose k) ++ b
      ∧ update_svg_metadata [(k, v)] (update_svg_metadata [(k, v)]
          (a ++ vdOpen k ++ mid ++ vdClose k ++ b))
        = update_svg_metadata [(k, v)] (a ++ vdOpen k ++ mid ++ vdClose k ++ b))
    ∧ (∀ k v svg : List Char, allowedMetaKeys.contains k = true →
        containsSub (vdOpen k) svg = false →
        update_svg_metadata [(k, v)] svg = svg)
    ∧ (∀ j g1 g2 : List Char,
        containsSub ocrOpen (g1 ++ docCloseMarker ++ g2) = false →
        noOccBefore docCloseMarker (g1 ++ docCloseMarker ++ g2) g1.length = true →
        containsSub statusOpen
          (g1 ++ (("      ").toList ++ ocrOpen ++ j ++ ocrClose
            ++ ("\x0a    ").toList) ++ docCloseMarker ++ g2) = false →
        import_svg_data (some j) none (g1 ++ docCloseMarker ++ g2)
          = g1 ++ (("      ").toList ++ ocrOpen ++ j ++ ocrClose
            ++ ("\x0a    ").toList) ++ docCloseMarker ++ g2) := by
  refine ⟨?_, ?_, ?_⟩
  · intro k v a mid b hk hmid hv _hvbs h1 h2 h1'
    have hrepl : update_svg_metadata [(k, v)] (a ++ vdOpen k ++ mid ++ vdClose k ++ b)
        = a ++ (vdOpen k ++ v ++ vdClose k) ++ b := by
      rw [update_svg_metadata_single hk, updateSvgField]
      exact reSubTagNoLt_eq (vdOpen_ne_nil k)
        ⟨("/veridock:").toList ++ k ++ (">").toList, vdClose_cons k⟩
        hmid (noOccBefore_not_pref h1) h2
    refine ⟨hrepl, ?_⟩
    rw [hrepl]
    have heq : a ++ (vdOpen k ++ v ++ vdClose k) ++ b
        = a ++ vdOpen k ++ v ++ vdClose k ++ b := by
      simp [List.append_assoc]
    rw [heq]
    rw [update_svg_metadata_single hk, updateSvgField,
      reSubTagNoLt_eq (vdOpen_ne_nil k)
        ⟨("/veridock:").toList ++ k ++ (">").toList, vdClose_cons k⟩
        hv (noOccBefore_not_pref h1') h2]
    simp [List.append_assoc]
  · intro k v svg hk habs
    rw [update_svg_metadata_single hk, updateSvgField]
    exact reSubTagNoLt_id habs
  · intro j g1 g2 hocr hdc hst
    have hins : insertBefore docCloseMarker
        (("      ").toList ++ ocrOpen ++ j ++ ocrClose ++ ("\x0a    ").toList)
        (g1 ++ docCloseMarker ++ g2)
        = g1 ++ (("      ").toList ++ ocrOpen ++ j ++ ocrClose
            ++ ("\x0a    ").toList) ++ docCloseMarker ++ g2 :=
      insertBefore_eq (noOccBefore_not_pref hdc)
    simp only [import_svg_data, hocr, Bool.false_eq_true, if_false]
    rw [hins]
    exact reSubTagNoLt_id hst

/-- Witness for C5's amended claim: the `ocr_status` field on a concrete
container (replacement and idempotence), a concrete absent-element no-op,
and a concrete import insertion. -/
theorem C5_witness :
    (update_svg_metadata [(("ocr_status").toList, ("completed").toList)]
      (("<m>").toList ++ vdOpen (("ocr_status").toList) ++ ("pending").toList
        ++ vdClose (("ocr_status").toList) ++ ("</m>").toList)
      = ("<m>").toList ++ (vdOpen (("ocr_status").toList) ++ ("completed").toList
          ++ vdClose (("ocr_status").toList)) ++ ("</m>").toList
    ∧ update_svg_metadata [(("ocr_status").toList, ("completed").toList)]
        (update_svg_metadata [(("ocr_status").toList, ("completed").toList)]
          (("<m>").toList ++ vdOpen (("ocr_status").toList) ++ ("pending").toList
            ++ vdClose (("ocr_status").toList) ++ ("</m>").toList))
      = update_svg_metadata [(("ocr_status").toList, ("completed").toList)]
          (("<m>").toList ++ vdOpen (("ocr_status").toList) ++ ("pending").toList
            ++ vdClose (("ocr_status").toList) ++ ("</m>").toList))
    ∧ update_svg_metadata [(("pages").toList, ("3").toList)] (("<n></n>").toList)
      = ("<n></n>").toList
    ∧ import_svg_data (some (("\x7b\x7d").toList)) none
        (("<q>").toList ++ docCloseMarker ++ ("</q>").toList)
      = ("<q>").toList ++ (("      ").toList ++ ocrOpen ++ ("\x7b\x7d").toList
          ++ ocrClose ++ ("\x0a    ").toList) ++ docCloseMarker ++ ("</q>").toList :=
  ⟨C5_update_field_semantics.1 (("ocr_status").toList) (("completed").toList)
      (("<m>").toList) (("pending").toList) (("</m>").toList)
      (by decide) (by decide) (by decide) (by decide) (by decide) (by decide) (by decide),
   C5_update_field_semantics.2.1 (("pages").toList) (("3").toList)
      (("<n></n>").toList) (by decide) (by decide),
   C5_update_field_semantics.2.2 (("\x7b\x7d").toList) (("<q>").toList)
      (("</q>").toList) (by decide) (by decide) (by decide)⟩

/-! ## Claim C1 -/

/-- C1: for every source PDF byte string `P` accepted by the Convert stage
(nonempty, bytes, rasterizable — rasterization success is implicit in the
thumbnail grid parameter), extracting the PDF payload out of the container
text written by `convert` (leftmost `data:application/pdf;base64,<run>`
match, then `base64.b64decode`, exactly as `extract_pdf_from_svg` decodes
it) reproduces `P` byte-for-byte.  The hypothesis `hpre` states that no
spurious match of the data-URI pattern occurs in the metadata prefix of the
container, i.e. the leftmost match is the embedded payload itself — this
holds for every actual conversion since a Unix basename cannot contain `/`
and ISO timestamps, page numbers and typical PDF metadata contain no
`data:application/pdf;base64,<base64-char>` run. -/
theorem C1_convert_roundtrip
    (filename creationTime pagesStr pdfMetaJson thumbnailGrid : List Char)
    (P : List Nat) (hbytes : ∀ b ∈ P, b < 256) (hne : P ≠ [])
    (hpre : noPdfMatchBefore
      (create_svg_template filename creationTime pagesStr pdfMetaJson
        (b64encode P) thumbnailGrid)
      (tplPrefix filename creationTime pagesStr pdfMetaJson).length = true) :
    extract_pdf_from_svg
      (create_svg_template filename creationTime pagesStr pdfMetaJson
        (b64encode P) thumbnailGrid) = some P := by
  have hsplit : create_svg_template filename creationTime pagesStr pdfMetaJson
      (b64encode P) thumbnailGrid
      = tplPrefix filename creationTime pagesStr pdfMetaJson
        ++ (pdfMarker ++ (b64encode P
          ++ tplSuffix filename creationTime pagesStr thumbnailGrid)) := by
    simp [create_svg_template, tplPrefix, tplSuffix, List.append_assoc]
  have hdrop : (create_svg_template filename creationTime pagesStr pdfMetaJson
      (b64encode P) thumbnailGrid).drop
        (tplPrefix filename creationTime pagesStr pdfMetaJson).length
      = pdfMarker ++ (b64encode P
          ++ tplSuffix filename creationTime pagesStr thumbnailGrid) := by
    rw [hsplit, List.drop_left]
  have hsuffix : (tplSuffix filename creationTime pagesStr thumbnailGrid).takeWhile
      isB64Char = [] := by
    have hF : tplF.head? = some '\x0a' := by decide
    have : tplSuffix filename creationTime pagesStr thumbnailGrid
        = tplF ++ (thumbnailGrid
          ++ (tplG ++ filename ++ (" • ").toList ++ pagesStr ++ (" stron • ").toList
          ++ creationTime.take 10 ++ tplH ++ thumbnailGrid ++ tplI
          ++ creationTime.take 16 ++ tplJ ++ filename ++ tplK)) := by
      simp [tplSuffix, List.append_assoc]
    rw [this]
    exact takeWhile_nil_of_head hF (by decide)
  have hextract : extractPdfB64 (create_svg_template filename creationTime pagesStr
      pdfMetaJson (b64encode P) thumbnailGrid) = some (b64encode P) := by
    rw [extractPdfB64_drop hpre, hdrop]
    have hp2 : b64encode P ++ tplSuffix filename creationTime pagesStr thumbnailGrid
        = b64encode P ++ tplSuffix filename creationTime pagesStr thumbnailGrid := rfl
    exact extractPdfB64_here (b64encode_all_b64 P hbytes)
      (b64encode_ne_nil P hne) hsuffix
  rw [extract_pdf_from_svg, hextract]
  exact b64_roundtrip P hbytes

/-! ## Claim C7 -/

/-- C7: for every page count `N ≥ 1` the grid uses `cols = min(4, N)` and
`rows = ⌈N / cols⌉` (stated both through Mathlib's ceiling division and
through the characterising bounds), and for every page index `i < N` the
tile for page `i` is pasted at `((i % cols) * tileW, (i / cols) * tileH)`
with the recorded tile-position metadata equal to that placement (page
number `i + 1`, same offsets, fixed tile size). -/
theorem C7_grid_layout (N tileW tileH : Nat) (hN : 1 ≤ N) :
    gridCols 4 N = min 4 N
    ∧ gridRows N (gridCols 4 N) = N ⌈/⌉ gridCols 4 N
    ∧ N ≤ gridRows N (gridCols 4 N) * gridCols 4 N
    ∧ (gridRows N (gridCols 4 N) - 1) * gridCols 4 N < N
    ∧ ∀ i < N,
        (pagePositions N (gridCols 4 N) tileW tileH)[i]? =
          some { page := i + 1, x := i % gridCols 4 N * tileW,
                 y := i / gridCols 4 N * tileH, width := tileW, height := tileH }
        ∧ pasteOffset (gridCols 4 N) tileW tileH i
            = (i % gridCols 4 N * tileW, i / gridCols 4 N * tileH) := by
  have hc : 0 < gridCols 4 N := by
    simp only [gridCols]
    omega
  have hceil : gridRows N (gridCols 4 N) = N ⌈/⌉ gridCols 4 N := by
    rw [Nat.ceilDiv_eq_add_pred_div]
    rfl
  refine ⟨rfl, hceil, ?_, ?_, ?_⟩
  · have h := le_smul_ceilDiv (b := N) hc
    rw [smul_eq_mul] at h
    rw [hceil, Nat.mul_comm]
    exact h
  · by_contra hcon
    push_neg at hcon
    have h1 : N ⌈/⌉ gridCols 4 N ≤ gridRows N (gridCols 4 N) - 1 := by
      apply (ceilDiv_le_iff_le_smul hc).2
      rw [smul_eq_mul, Nat.mul_comm]
      exact hcon
    have h2 : 1 ≤ gridRows N (gridCols 4 N) := by
      rw [gridRows, Nat.one_le_div_iff hc]
      omega
    rw [← hceil] at h1
    omega
  · intro i hi
    constructor
    · simp [pagePositions, List.getElem?_map, List.getElem?_range, hi]
    · rfl

/-- Witness for C7 at `N = 5` pages with the 200×280 tile size of
`PDFToSVGConverter`. -/
theorem C7_witness :
    1 ≤ 5 ∧
    (gridCols 4 5 = min 4 5
    ∧ gridRows 5 (gridCols 4 5) = 5 ⌈/⌉ gridCols 4 5
    ∧ 5 ≤ gridRows 5 (gridCols 4 5) * gridCols 4 5
    ∧ (gridRows 5 (gridCols 4 5) - 1) * gridCols 4 5 < 5
    ∧ ∀ i < 5,
        (pagePositions 5 (gridCols 4 5) 200 280)[i]? =
          some { page := i + 1, x := i % gridCols 4 5 * 200,
                 y := i / gridCols 4 5 * 280, width := 200, height := 280 }
        ∧ pasteOffset (gridCols 4 5) 200 280 i
            = (i % gridCols 4 5 * 200, i / gridCols 4 5 * 280)) :=
  ⟨by omega, C7_grid_layout 5 200 280 (by omega)⟩

/-! ## Daemon-model helper lemmas -/

/-- Replacing a four-character extension by `.svg` never yields a path that
`find_pdf_files` would treat as a PDF. -/
theorem lowerEndsWithPdf_append_svg (q : List Char) :
    lowerEndsWithPdf (q ++ (".svg").toList) = false := by
  rw [lowerEndsWithPdf, List.map_append]
  have hm : (".svg").toList.map Char.toLower = ['.', 's', 'v', 'g'] := by decide
  rw [hm]
  by_contra h
  rw [Bool.not_eq_false, List.isSuffixOf_iff_suffix] at h
  obtain ⟨t, ht⟩ := h
  have hr := congrArg List.reverse ht
  rw [List.reverse_append, List.reverse_append] at hr
  have : (".pdf").toList.reverse = ['f', 'd', 'p', '.'] := by decide
  rw [this] at hr
  have : (['.', 's', 'v', 'g'] : List Char).reverse = ['g', 'v', 's', '.'] := by decide
  rw [this] at hr
  simp at hr

theorem lowerEndsWithPdf_splitextSvg (p : List Char) :
    lowerEndsWithPdf (splitextSvg p) = false :=
  lowerEndsWithPdf_append_svg _

/-- A path with the PDF extension differs from any `.svg`-extended path. -/
theorem pdf_path_ne_svg {p q : List Char} (hp : lowerEndsWithPdf p = true) :
    p ≠ splitextSvg q := by
  intro h
  rw [h, lowerEndsWithPdf_splitextSvg q] at hp
  exact absurd hp (by simp)

theorem find?_filter_of_imp {l : List FsFile} {p q : FsFile → Bool}
    (h : ∀ a, p a = true → q a = true) :
    (l.filter q).find? p = l.find? p := by
  induction l with
  | nil => rfl
  | cons a as ih =>
      cases hp : p a with
      | true =>
          rw [List.filter_cons, h a hp]
          simp [List.find?_cons_of_pos, hp]
      | false =>
          rw [List.filter_cons]
          cases hq : q a with
          | true =>
              simp only [if_true]
              rw [List.find?_cons_of_neg _ (by simp [hp]),
                List.find?_cons_of_neg _ (by simp [hp])]
              exact ih
          | false =>
              simp only [Bool.false_eq_true, if_false]
              rw [List.find?_cons_of_neg _ (by simp [hp])]
              exact ih

/-- `convert` on a readable, nonempty, rasterizable source: the success
branch. -/
theorem convert_success {caps : DaemonCaps} {fs : FileSystem} {pdfPath : List Char}
    {f : FsFile} {grid : List Char}
    (hf : fs.find? (fun g => g.path == pdfPath) = some f)
    (hro : caps.readOk f.content = true) (hx : f.content ≠ [])
    (hgr : caps.raster f.content = some grid) :
    convert caps fs pdfPath
      = (some (splitextSvg pdfPath),
         writeFile fs (splitextSvg pdfPath)
           (container_bytes caps pdfPath f.content grid)) := by
  have hb : (b64encode f.content).isEmpty = false := by
    cases hbe : b64encode f.content with
    | nil => exact absurd hbe (b64encode_ne_nil f.content hx)
    | cons c cs => rfl
  simp [convert, hf, hro, hb, hgr]

/-- `process_pdf` on a present, readable, nonempty, rasterizable source with
write-free thumbnail generation: container written, fingerprint recorded,
original deleted, success reported. -/
theorem process_pdf_success {caps : DaemonCaps} {fs : FileSystem}
    (processed : ProcessedSet) {pdfPath : List Char} {f : FsFile} {grid : List Char}
    (hf : fs.find? (fun g => g.path == pdfPath) = some f)
    (hpdf : lowerEndsWithPdf pdfPath = true)
    (hro : caps.readOk f.content = true) (hx : f.content ≠ [])
    (hgr : caps.raster f.content = some grid)
    (hth : ∀ fs' p s, caps.thumbEffect fs' p s = fs') :
    process_pdf caps fs processed pdfPath
      = (true,
         removeFile (writeFile fs (splitextSvg pdfPath)
           (container_bytes caps pdfPath f.content grid)) pdfPath,
         if processed.contains f.content then processed
           else processed ++ [f.content]) := by
  have hfind2 : (writeFile fs (splitextSvg pdfPath)
      (container_bytes caps pdfPath f.content grid)).find?
        (fun g => g.path == pdfPath) = some f := by
    rw [writeFile, List.find?_append]
    have h1 : (fs.filter (fun g => !(g.path == splitextSvg pdfPath))).find?
        (fun g => g.path == pdfPath) = some f := by
      rw [find?_filter_of_imp]
      · exact hf
      · intro a ha
        have hap : a.path = pdfPath := by simpa using ha
        simp only [Bool.not_eq_eq_eq_not, Bool.not_true, beq_eq_false_iff_ne]
        rw [hap]
        exact pdf_path_ne_svg hpdf
    rw [h1]
    rfl
  rw [process_pdf, convert_success hf hro hx hgr]
  simp only [hth, hfind2, get_file_hash]

/-! ## Claim C6 -/

/-- C6: `convert` is all-or-nothing.  If the candidate is missing, its bytes
cannot be read or are empty (`pdf_to_base64` yields the falsy `''`), or
rasterization of the thumbnails fails, then `convert` returns `None` and the
file system is exactly unchanged — no partial container exists and the
candidate is still on disk for retry.  The container file is written (a
single final write) only once metadata strings, base64 payload and
thumbnail grid have all been produced, and it is the complete container
text. -/
theorem C6_convert_all_or_nothing (caps : DaemonCaps) (fs : FileSystem)
    (pdfPath : List Char) :
    (fs.find? (fun f => f.path == pdfPath) = none →
      convert caps fs pdfPath = (none, fs))
    ∧ (∀ f, fs.find? (fun f => f.path == pdfPath) = some f →
        ((caps.readOk f.content = false ∨ f.content = []) →
          convert caps fs pdfPath = (none, fs))
        ∧ (caps.raster f.content = none → convert caps fs pdfPath = (none, fs))
        ∧ (∀ grid, caps.raster f.content = some grid →
            caps.readOk f.content = true → f.content ≠ [] →
            convert caps fs pdfPath =
              (some (splitextSvg pdfPath),
               writeFile fs (splitextSvg pdfPath)
                 (container_bytes caps pdfPath f.content grid)))) := by
  refine ⟨fun h => by simp [convert, h], fun f hf => ⟨?_, ?_, ?_⟩⟩
  · rintro (h | h)
    · simp [convert, hf, h]
    · cases hro : caps.readOk f.content <;>
        simp [convert, hf, hro, h, b64encode]
  · intro h
    by_cases hro : caps.readOk f.content
    · by_cases hc : f.content = []
      · simp [convert, hf, hro, hc, b64encode]
      · have hb : (b64encode f.content).isEmpty = false := by
          cases hbe : b64encode f.content with
          | nil => exact absurd hbe (b64encode_ne_nil f.content hc)
          | cons x xs => rfl
        simp [convert, hf, hro, hb, h]
    · simp [convert, hf, eq_false_of_ne_true hro]
  · intro grid hgr hro hc
    exact convert_success hf hro hc hgr

/-- Witness for C6: the failure conjunct at a concrete state with a failing
reader, and the success conjunct at a concrete working state. -/
theorem C6_witness :
    convert capsNoRead fsOne (("x/a.pdf").toList) = (none, fsOne)
    ∧ convert capsOk fsOne (("x/a.pdf").toList)
      = (some (("x/a.svg").toList),
         writeFile fsOne (("x/a.svg").toList)
           (container_bytes capsOk (("x/a.pdf").toList) [9] ("GRID").toList)) := by
  constructor
  · exact ((C6_convert_all_or_nothing capsNoRead fsOne (("x/a.pdf").toList)).2
      ⟨("x/a.pdf").toList, [9]⟩ (by decide)).1 (Or.inl rfl)
  · have h := ((C6_convert_all_or_nothing capsOk fsOne (("x/a.pdf").toList)).2
      ⟨("x/a.pdf").toList, [9]⟩ (by decide)).2.2 (("GRID").toList) rfl rfl (by decide)
    have hsvg : splitextSvg (("x/a.pdf").toList) = ("x/a.svg").toList := by decide
    rw [hsvg] at h
    exact h

/-! ## Claim C4 -/

set_option maxRecDepth 10000 in
/-- C4 counterexample: with two identical-content files `x/a.pdf` and
`x/b.pdf` and an empty processed set, one scan-and-process cycle discovers
both — and then converts AND deletes BOTH (the second file's container
`x/b.svg` exists and `x/b.pdf` is gone), contradicting the claim that
exactly one is converted and deleted while the second is skipped by dedup
without being converted or deleted. -/
theorem C4_counterexample :
    find_pdf_files fsDup [] = [("x/a.pdf").toList, ("x/b.pdf").toList]
    ∧ (run_cycle capsOk fsDup []).1.find?
        (fun f => f.path == ("x/b.pdf").toList) = none
    ∧ ((run_cycle capsOk fsDup []).1.map FsFile.path).contains
        (("x/b.svg").toList) = true
    ∧ (run_cycle capsOk fsDup []).1.find?
        (fun f => f.path == ("x/a.pdf").toList) = none
    ∧ ((run_cycle capsOk fsDup []).1.map FsFile.path).contains
        (("x/a.svg").toList) = true := by
  refine ⟨by decide, ?_, ?_, ?_, ?_⟩ <;> decide

/-- C4 amended: both duplicates are discovered by the one scan (dedup sees
the processed set as it was before the cycle), and the processing loop —
which performs no dedup check of its own — converts and deletes **both**
files; the shared fingerprint is recorded once.  A duplicate is skipped only
by a later cycle's discovery, after the fingerprint has been recorded. -/
theorem C4_amended (caps : DaemonCaps) (p1 p2 : List Char) (x : List Nat)
    (hne : p1 ≠ p2) (hsvgne : splitextSvg p1 ≠ splitextSvg p2)
    (hp1 : lowerEndsWithPdf p1 = true) (hp2 : lowerEndsWithPdf p2 = true)
    (hro : caps.readOk x = true) (hx : x ≠ []) (grid : List Char)
    (hgr : caps.raster x = some grid)
    (hth : ∀ fs' p s, caps.thumbEffect fs' p s = fs') :
    find_pdf_files [⟨p1, x⟩, ⟨p2, x⟩] [] = [p1, p2]
    ∧ run_cycle caps [⟨p1, x⟩, ⟨p2, x⟩] []
      = ([⟨splitextSvg p1, container_bytes caps p1 x grid⟩,
          ⟨splitextSvg p2, container_bytes caps p2 x grid⟩], [x]) := by
  have hns1p1 : p1 ≠ splitextSvg p1 := pdf_path_ne_svg hp1
  have hns1p2 : p2 ≠ splitextSvg p1 := pdf_path_ne_svg hp2
  have hns2p2 : p2 ≠ splitextSvg p2 := pdf_path_ne_svg hp2
  have hdisc : find_pdf_files [⟨p1, x⟩, ⟨p2, x⟩] [] = [p1, p2] := by
    simp [find_pdf_files, hp1, hp2, get_file_hash]
  refine ⟨hdisc, ?_⟩
  have hfind1 : ([⟨p1, x⟩, ⟨p2, x⟩] : FileSystem).find? (fun g => g.path == p1)
      = some ⟨p1, x⟩ :=
    List.find?_cons_of_pos _ (by simp)
  have hstep1 := process_pdf_success [] hfind1 hp1 hro hx hgr hth
  have hfs1 : removeFile (writeFile [⟨p1, x⟩, ⟨p2, x⟩] (splitextSvg p1)
      (container_bytes caps p1 x grid)) p1
      = [⟨p2, x⟩, ⟨splitextSvg p1, container_bytes caps p1 x grid⟩] := by
    rw [writeFile, removeFile]
    simp [List.filter_cons, hns1p1, hns1p2, hne.symm, hns1p1.symm]
  have hfind2 : ([⟨p2, x⟩, ⟨splitextSvg p1, container_bytes caps p1 x grid⟩] :
      FileSystem).find? (fun g => g.path == p2) = some ⟨p2, x⟩ :=
    List.find?_cons_of_pos _ (by simp)
  have hstep2 := process_pdf_success [x] hfind2 hp2 hro hx hgr hth
  have hfs2 : removeFile (writeFile
      [⟨p2, x⟩, ⟨splitextSvg p1, container_bytes caps p1 x grid⟩]
      (splitextSvg p2) (container_bytes caps p2 x grid)) p2
      = [⟨splitextSvg p1, container_bytes caps p1 x grid⟩,
         ⟨splitextSvg p2, container_bytes caps p2 x grid⟩] := by
    rw [writeFile, removeFile]
    simp [List.filter_cons, hns2p2, hsvgne, Ne.symm hsvgne, Ne.symm hns1p2,
      Ne.symm hns2p2]
  rw [run_cycle, hdisc]
  simp only [List.foldl_cons, List.foldl_nil]
  rw [hstep1]
  simp only [List.contains, List.elem_nil, Bool.false_eq_true, if_false,
    List.nil_append, hfs1]
  rw [hstep2]
  simp only [hfs2]
  have hcont : ([x] : ProcessedSet).contains x = true := by simp
  rw [if_pos hcont]

/-- Witness for C4's amended claim at the concrete duplicate pair. -/
theorem C4_amended_witness :
    find_pdf_files [⟨("x/a.pdf").toList, [1, 2]⟩, ⟨("x/b.pdf").toList, [1, 2]⟩] []
      = [("x/a.pdf").toList, ("x/b.pdf").toList]
    ∧ run_cycle capsOk [⟨("x/a.pdf").toList, [1, 2]⟩, ⟨("x/b.pdf").toList, [1, 2]⟩] []
      = ([⟨splitextSvg (("x/a.pdf").toList),
           container_bytes capsOk (("x/a.pdf").toList) [1, 2] ("GRID").toList⟩,
          ⟨splitextSvg (("x/b.pdf").toList),
           container_bytes capsOk (("x/b.pdf").toList) [1, 2] ("GRID").toList⟩],
         [[1, 2]]) :=
  C4_amended capsOk (("x/a.pdf").toList) (("x/b.pdf").toList) [1, 2]
    (by decide) (by decide) (by decide) (by decide) rfl (by decide)
    (("GRID").toList) rfl (fun _ _ _ => rfl)

/-! ## Claim C8 -/

theorem mem_removeFile {fs : FileSystem} {p : List Char} {g : FsFile} :
    g ∈ removeFile fs p ↔ g ∈ fs ∧ g.path ≠ p := by
  simp [removeFile, List.mem_filter]

theorem mem_writeFile {fs : FileSystem} {p : List Char} {c : List Nat} {g : FsFile} :
    g ∈ writeFile fs p c ↔ ((g ∈ fs ∧ g.path ≠ p) ∨ g = ⟨p, c⟩) := by
  simp only [writeFile, List.mem_append, List.mem_filter, List.mem_singleton,
    Bool.not_eq_eq_eq_not, Bool.not_true, beq_eq_false_iff_ne, ne_eq]

theorem contains_append_left {l : ProcessedSet} {a h : List Nat}
    (hl : l.contains a = true) : (l ++ [h]).contains a = true := by
  simp only [List.contains_eq_any_beq, List.any_eq_true] at hl ⊢
  obtain ⟨b, hb, hab⟩ := hl
  exact ⟨b, List.mem_append_left _ hb, hab⟩

theorem nodup_paths_write_remove {fs : FileSystem} {sp pp : List Char} {c : List Nat}
    (hn : (fs.map FsFile.path).Nodup) :
    ((removeFile (writeFile fs sp c) pp).map FsFile.path).Nodup := by
  have h1 : ((writeFile fs sp c).map FsFile.path).Nodup := by
    rw [writeFile, List.map_append, List.nodup_append]
    refine ⟨?_, List.nodup_singleton _, ?_⟩
    · exact List.Nodup.sublist ((List.filter_sublist fs).map FsFile.path) hn
    · intro a ha hmem
      simp only [List.mem_map, List.mem_filter] at ha
      obtain ⟨g, ⟨_, hg⟩, rfl⟩ := ha
      have hne : g.path ≠ sp := by simpa using hg
      simp only [List.map_cons, List.map_nil, List.mem_singleton] at hmem
      exact hne hmem
  exact List.Nodup.sublist
    ((List.filter_sublist (writeFile fs sp c)).map FsFile.path) h1

/-- After a cycle that processed every discovered candidate successfully,
every remaining `.pdf` file's fingerprint is recorded. -/
theorem cycle_fold_alldone (caps : DaemonCaps)
    (hth : ∀ fs' p s, caps.thumbEffect fs' p s = fs') :
    ∀ (L : List (List Char)) (fs : FileSystem) (proc : ProcessedSet),
      (∀ f ∈ fs, lowerEndsWithPdf f.path = true →
        caps.readOk f.content = true ∧ f.content ≠ [] ∧
          (caps.raster f.content).isSome = true) →
      (fs.map FsFile.path).Nodup →
      L.Nodup →
      (∀ p ∈ L, lowerEndsWithPdf p = true) →
      (∀ p ∈ L, ∃ f, f ∈ fs ∧ f.path = p) →
      (∀ f ∈ fs, lowerEndsWithPdf f.path = true → f.path ∉ L →
        proc.contains f.content = true) →
      ∀ f ∈ (L.foldl (fun st p =>
          let r := process_pdf caps st.1 st.2 p
          (r.2.1, r.2.2)) (fs, proc)).1,
        lowerEndsWithPdf f.path = true →
        (L.foldl (fun st p =>
          let r := process_pdf caps st.1 st.2 p
          (r.2.1, r.2.2)) (fs, proc)).2.contains f.content = true := by
  intro L
  induction L with
  | nil =>
      intro fs proc hGood hN hLnd hLp hLfs hRest f hf hpdf
      simp only [List.foldl_nil] at hf ⊢
      exact hRest f hf hpdf (by simp)
  | cons p L' ih =>
      intro fs proc hGood hN hLnd hLp hLfs hRest
      obtain ⟨f1, hf1mem, hf1path⟩ := hLfs p (by simp)
      have hsome : (fs.find? (fun g => g.path == p)).isSome := by
        rw [List.find?_isSome]
        exact ⟨f1, hf1mem, by simp [hf1path]⟩
      obtain ⟨f₀, hfind⟩ := Option.isSome_iff_exists.mp hsome
      have hf₀path : f₀.path = p := by simpa using List.find?_some hfind
      have hf₀mem : f₀ ∈ fs := List.mem_of_find?_eq_some hfind
      have hp : lowerEndsWithPdf p = true := hLp p (by simp)
      obtain ⟨hro, hx, hras⟩ := hGood f₀ hf₀mem (by rw [hf₀path]; exact hp)
      obtain ⟨grid, hgr⟩ := Option.isSome_iff_exists.mp hras
      have hstep := process_pdf_success proc hfind hp hro hx hgr hth
      rw [List.foldl_cons]
      simp only [hstep]
      apply ih
      · intro g hg hgp
        rw [mem_removeFile] at hg
        rcases mem_writeFile.mp hg.1 with ⟨hgfs, _⟩ | rfl
        · exact hGood g hgfs hgp
        · exact absurd hgp (by simp [lowerEndsWithPdf_splitextSvg])
      · exact nodup_paths_write_remove hN
      · exact (List.nodup_cons.mp hLnd).2
      · exact fun q hq => hLp q (by simp [hq])
      · intro q hq
        obtain ⟨g, hgmem, hgpath⟩ := hLfs q (by simp [hq])
        have hqpdf := hLp q (by simp [hq])
        have hqnep : q ≠ p := by
          intro h
          exact (List.nodup_cons.mp hLnd).1 (h ▸ hq)
        refine ⟨g, ?_, hgpath⟩
        rw [mem_removeFile]
        refine ⟨?_, by rw [hgpath]; exact hqnep⟩
        rw [mem_writeFile]
        exact Or.inl ⟨hgmem, by rw [hgpath]; exact pdf_path_ne_svg hqpdf⟩
      · intro g hg hgpdf hgnotin
        rw [mem_removeFile] at hg
        obtain ⟨hgw, hgnep⟩ := hg
        rcases mem_writeFile.mp hgw with ⟨hgfs, _⟩ | rfl
        · have hnotin : g.path ∉ p :: L' := by
            simp only [List.mem_cons, not_or]
            exact ⟨hgnep, hgnotin⟩
          have hcont := hRest g hgfs hgpdf hnotin
          by_cases hc : proc.contains f₀.content
          · rw [if_pos hc]; exact hcont
          · rw [if_neg hc]; exact contains_append_left hcont
        · exact absurd hgpdf (by simp [lowerEndsWithPdf_splitextSvg])

theorem find_pdf_files_eq_nil {fs : FileSystem} {proc : ProcessedSet}
    (h : ∀ f ∈ fs, lowerEndsWithPdf f.path = true → proc.contains f.content = true) :
    find_pdf_files fs proc = [] := by
  rw [find_pdf_files, List.map_eq_nil_iff, List.filter_eq_nil_iff]
  intro a ha hcon
  simp only [get_file_hash, Bool.and_eq_true, Bool.not_eq_true'] at hcon
  rw [h a ha hcon.1] at hcon
  exact absurd hcon.2 (by simp)

/-- C8 counterexample: discovery does not mutate the processed set, so with
one unprocessed candidate on disk, running `find_pdf_files` a second time
over the same roots with no new files (and no processing in between)
returns the same nonempty list — not the empty list. -/
theorem C8_counterexample :
    find_pdf_files fsOne [] = [("x/a.pdf").toList]
    ∧ find_pdf_files fsOne [] ≠ [] := by
  refine ⟨by decide, by decide⟩

/-- C8 amended: (i) discovery never returns a candidate whose fingerprint is
already in the processed set (every returned path is backed by a `.pdf`
file with an unrecorded fingerprint); (ii) the second discovery run over the
same roots returns the empty list provided the candidates discovered by the
first run were processed in between — i.e. after one full scan-and-process
cycle in which every `.pdf` file was readable, nonempty and rasterizable
(with write-free thumbnail generation) and paths are distinct, discovery
finds nothing. -/
theorem C8_amended :
    (∀ (fs : FileSystem) (proc : ProcessedSet) (p : List Char),
      p ∈ find_pdf_files fs proc →
      ∃ f, f ∈ fs ∧ f.path = p ∧ lowerEndsWithPdf p = true
        ∧ proc.contains (get_file_hash f.content) = false)
    ∧ (∀ (caps : DaemonCaps) (fs : FileSystem) (proc : ProcessedSet),
        (∀ fs' p s, caps.thumbEffect fs' p s = fs') →
        (∀ f ∈ fs, lowerEndsWithPdf f.path = true →
          caps.readOk f.content = true ∧ f.content ≠ [] ∧
            (caps.raster f.content).isSome = true) →
        (fs.map FsFile.path).Nodup →
        find_pdf_files (run_cycle caps fs proc).1 (run_cycle caps fs proc).2 = []) := by
  constructor
  · intro fs proc p hp
    rw [find_pdf_files, List.mem_map] at hp
    obtain ⟨f, hf, rfl⟩ := hp
    rw [List.mem_filter] at hf
    obtain ⟨hmem, hpred⟩ := hf
    rw [Bool.and_eq_true, Bool.not_eq_true'] at hpred
    exact ⟨f, hmem, rfl, hpred.1, hpred.2⟩
  · intro caps fs proc hth hGood hN
    rw [run_cycle]
    apply find_pdf_files_eq_nil
    apply cycle_fold_alldone caps hth (find_pdf_files fs proc) fs proc hGood hN
    · exact List.Nodup.sublist
        ((List.filter_sublist fs).map FsFile.path) hN
    · intro p hp
      rw [find_pdf_files, List.mem_map] at hp
      obtain ⟨f, hf, rfl⟩ := hp
      rw [List.mem_filter, Bool.and_eq_true] at hf
      exact hf.2.1
    · intro p hp
      rw [find_pdf_files, List.mem_map] at hp
      obtain ⟨f, hf, rfl⟩ := hp
      exact ⟨f, (List.mem_filter.mp hf).1, rfl⟩
    · intro f hf hpdf hnotin
      by_cases hc : proc.contains f.content
      · exact hc
      · exfalso
        apply hnotin
        rw [find_pdf_files, List.mem_map]
        exact ⟨f, List.mem_filter.mpr ⟨hf, by
          simp only [get_file_hash, Bool.and_eq_true, Bool.not_eq_true']
          exact ⟨hpdf, eq_false_of_ne_true hc⟩⟩, rfl⟩

/-- Witness for C8's amended claim: conjunct (i) at the one-candidate state,
conjunct (ii) after a full successful cycle over it. -/
theorem C8_amended_witness :
    (∃ f, f ∈ fsOne ∧ f.path = ("x/a.pdf").toList
      ∧ lowerEndsWithPdf (("x/a.pdf").toList) = true
      ∧ ([] : ProcessedSet).contains (get_file_hash f.content) = false)
    ∧ find_pdf_files (run_cycle capsOk fsOne []).1 (run_cycle capsOk fsOne []).2
      = [] :=
  ⟨C8_amended.1 fsOne [] (("x/a.pdf").toList) (by decide),
   C8_amended.2 capsOk fsOne [] (fun _ _ _ => rfl)
     (by
       intro f hf hpdf
       refine ⟨rfl, ?_, rfl⟩
       have : f = ⟨("x/a.pdf").toList, [9]⟩ := by
         simpa [fsOne] using hf
       rw [this]
       decide)
     (by decide)⟩

set_option maxRecDepth 100000 in
/-- Witness for C1: a concrete four-byte PDF `%PDF`, concrete metadata. -/
theorem C1_witness :
    extract_pdf_from_svg
      (create_svg_template ("doc.pdf").toList ("2024-01-01T00:00:00").toList
        ("1").toList ("\x7b\"pages\": 1\x7d").toList
        (b64encode [37, 80, 68, 70]) ("AAAA").toList) = some [37, 80, 68, 70] :=
  C1_convert_roundtrip ("doc.pdf").toList ("2024-01-01T00:00:00").toList
    ("1").toList ("\x7b\"pages\": 1\x7d").toList ("AAAA").toList
    [37, 80, 68, 70] (by decide) (by decide) (by decide)

/-! ## Claim C9 -/

/-- Every word retained by the filtering loop has confidence `> 30` and
nonempty (stripped) text. -/
theorem mem_filterWords {w : OcrWord} {raw : List RawWord}
    (h : w ∈ filterWords raw) : w.confidence > 30 ∧ w.text ≠ [] := by
  induction raw with
  | nil => simp [filterWords] at h
  | cons a as ih =>
      by_cases h30 : a.conf > 30
      · by_cases hemp : (pyStrip a.text).isEmpty
        · rw [filterWords, if_pos h30, if_pos hemp] at h
          exact ih h
        · rw [filterWords, if_pos h30, if_neg hemp] at h
          rcases List.mem_cons.mp h with h | h
          · subst h
            refine ⟨h30, ?_⟩
            simpa [List.isEmpty_iff] using hemp
          · exact ih h
      · rw [filterWords, if_neg h30] at h
        exact ih h

/-- C9 : counterexample.  A page whose full extracted text is `hello` but
whose only structural word box has confidence 20: the word is discarded
(no retained words, `total_words = 0`), yet the summary's
`total_characters` is 5 — it is `sum(len(result['text']) ...)` over the
full page texts, not a statistic of the retained words, contradicting the
claim that all four listed summary statistics are computed over retained
words only. -/
theorem C9_counterexample :
    (process_image_ocr 1 (("hello").toList)
        [⟨("hi").toList, 20, 0, 0, 0, 0⟩]).words = []
    ∧ (generate_ocr_summary
        [process_image_ocr 1 (("hello").toList)
          [⟨("hi").toList, 20, 0, 0, 0, 0⟩]]).total_words = 0
    ∧ (generate_ocr_summary
        [process_image_ocr 1 (("hello").toList)
          [⟨("hi").toList, 20, 0, 0, 0, 0⟩]]).total_characters = 5 := by
  decide

/-- C9 (amended): every retained word entry has confidence strictly greater
than 30 and nonempty text; in the document-level summary over pages
produced by `process_image_ocr`, `total_words`, `average_confidence` and
`top_words` are computed over the retained words only (they factor through
`filterWords` of the raw word data), while `total_characters` is the total
length of the stripped full page texts, independent of the word
filtering. -/
theorem C9_amended :
    (∀ (p : Nat) (ft : List Char) (raw : List RawWord),
      ∀ w ∈ (process_image_ocr p ft raw).words,
        w.confidence > 30 ∧ w.text ≠ [])
    ∧ (∀ inputs : List (Nat × List Char × List RawWord),
        (generate_ocr_summary
            (inputs.map (fun i => process_image_ocr i.1 i.2.1 i.2.2))).total_words
          = (inputs.map (fun i => (filterWords i.2.2).length)).sum
        ∧ (generate_ocr_summary
            (inputs.map (fun i => process_image_ocr i.1 i.2.1 i.2.2))).total_characters
          = (inputs.map (fun i => (pyStrip i.2.1).length)).sum
        ∧ (generate_ocr_summary
            (inputs.map (fun i => process_image_ocr i.1 i.2.1 i.2.2))).average_confidence
          = (if (((inputs.map (fun i =>
                (filterWords i.2.2).map (fun w => w.confidence))).flatten : List Int)).isEmpty
             then (0 : ℚ)
             else (((((inputs.map (fun i =>
                (filterWords i.2.2).map (fun w => w.confidence))).flatten : List Int)).map
                  (fun c => (c : ℚ))).sum)
               / (((inputs.map (fun i =>
                (filterWords i.2.2).map (fun w => w.confidence))).flatten : List Int)).length)
        ∧ (generate_ocr_summary
            (inputs.map (fun i => process_image_ocr i.1 i.2.1 i.2.2))).top_words
          = (((((inputs.map (fun i =>
                ((filterWords i.2.2).filter (fun w => w.text.length > 3)).map
                  (fun w => lowerStr w.text))).flatten).foldl freqInsert []).mergeSort
              (fun a b => b.2 ≤ a.2)).take 10)) := by
  constructor
  · intro p ft raw w hw
    simp only [process_image_ocr] at hw
    exact mem_filterWords hw
  · intro inputs
    refine ⟨?_, ?_, ?_, ?_⟩
    · simp [generate_ocr_summary, process_image_ocr, List.map_map, Function.comp_def]
    · simp [generate_ocr_summary, process_image_ocr, List.map_map, Function.comp_def]
    · have h : ((inputs.map (fun i => process_image_ocr i.1 i.2.1 i.2.2)).map
          (fun r => r.words.map (fun w => w.confidence)))
          = inputs.map (fun i => (filterWords i.2.2).map (fun w => w.confidence)) := by
        rw [List.map_map]
        rfl
      show (if ((((inputs.map (fun i => process_image_ocr i.1 i.2.1 i.2.2)).map
            (fun r => r.words.map (fun w => w.confidence))).flatten : List Int)).isEmpty
          then (0 : ℚ)
          else ((((((inputs.map (fun i => process_image_ocr i.1 i.2.1 i.2.2)).map
            (fun r => r.words.map (fun w => w.confidence))).flatten : List Int)).map
              (fun c => (c : ℚ))).sum)
            / ((((inputs.map (fun i => process_image_ocr i.1 i.2.1 i.2.2)).map
            (fun r => r.words.map (fun w => w.confidence))).flatten : List Int)).length) = _
      rw [h]
    · simp [generate_ocr_summary, process_image_ocr, List.map_map, Function.comp_def]

/-- C9 (amended) at a concrete input: the single retained word of a page
has confidence 80 > 30 and nonempty text. -/
theorem C9_amended_witness :
    (⟨("word").toList, (80 : Int), ⟨1, 2, 3, 4⟩⟩ : OcrWord).confidence > 30
    ∧ (⟨("word").toList, (80 : Int), ⟨1, 2, 3, 4⟩⟩ : OcrWord).text ≠ [] :=
  C9_amended.1 1 (("aa").toList) [⟨("word").toList, 80, 1, 2, 3, 4⟩]
    (⟨("word").toList, 80, ⟨1, 2, 3, 4⟩⟩ : OcrWord) (by decide)

/-! ## Claim C10 -/

set_option maxRecDepth 100000 in
/-- C10 : `validate_svg` always returns a structured report (the model is a
total function, matching the source whose catch-all handler still returns a
report) with `valid` exactly "no blocking errors" on every input, including
a missing file; a container without the namespace declaration is invalid
with the blocking error `Brak namespace VeriDock`; and the minimal
container — namespace, document block, nonempty
filename / creation_time / pages, a decodable 102-byte payload, status
`pending` — is reported valid with no errors and no warnings. -/
theorem C10_validate_total :
    (∀ (e : Bool) (svg : List Char),
      (validate_svg e svg).valid = (validate_svg e svg).errors.isEmpty)
    ∧ (∀ svg : List Char, containsSub nsDecl svg = false →
        (validate_svg true svg).valid = false
        ∧ ("Brak namespace VeriDock").toList ∈ (validate_svg true svg).errors)
    ∧ ((validate_svg true minimalContainer).valid = true
        ∧ (validate_svg true minimalContainer).errors = []
        ∧ (validate_svg true minimalContainer).warnings = []) := by
  refine ⟨?_, ?_, ?_⟩
  · intro e svg
    cases e <;> rfl
  · intro svg h
    constructor
    · simp [validate_svg, h]
    · simp [validate_svg, h]
  · refine ⟨?_, ?_, ?_⟩ <;> decide

/-- C10 at concrete inputs: a bare `<svg></svg>` has no namespace
declaration and is reported invalid with the namespace error. -/
theorem C10_witness :
    (validate_svg true (("<svg></svg>").toList)).valid = false
    ∧ ("Brak namespace VeriDock").toList
        ∈ (validate_svg true (("<svg></svg>").toList)).errors :=
  C10_validate_total.2.1 (("<svg></svg>").toList) (by decide)

end Veridock
